import Mathlib

/-!
Verification of the prompt-to-code generation core of the open-lovable
repository (TypeScript), as a shallow embedding in Lean 4.

Source files embedded:
  src/lib/flutter-package-manager.ts  (pubspec operations, intent classifier,
                                       file resolvers, confidence scoring)
  src/lib/dart-validator.ts           (heuristic Dart validator)
  src/lib/flutter-code-generator.ts   (template renderer and generators)

Modelling conventions, used consistently below:
  - JS strings are `List Char` (abbreviated `Str`).  String literals write
    the brace characters via the escapes \x7b and \x7d and the apostrophe
    via \x27.
  - JS regexes are embedded operationally: each regex used by the source is
    translated either into a small regex AST evaluated by an existential
    (backtracking-complete) matcher, or - where capture groups or global
    replacement are involved - into a specialised scanner that is noted next
    to the definition.  Maximal-munch scanning is used exactly where the
    regex engine's backtracking is deterministic (disjoint character
    classes), as argued in comments.
  - The character class \s and String.prototype.trim are modelled by the
    ASCII whitespace set `jsSpace`; \w by [A-Za-z0-9_]; toLowerCase and the
    /i flag by the ASCII lowercase map `jsToLower` (the sources only
    distinguish ASCII case; Korean characters used by one pattern group are
    unaffected by case mapping).
  - JS numbers used by the confidence score are modelled as rationals; the
    claims under test are about the literal constants 0.5/0.2/0.1/0.3, not
    about binary floating point rounding.
  - Mutable JS objects whose aliasing matters (PubspecData dependency maps)
    are modelled with an explicit heap of association lists; `delete
    obj[k]` removes the entry, assignment updates in place or appends,
    which is JS property order.
-/

/-! ## Basic string model -/

/-- JS strings as lists of characters. -/
abbrev Str := List Char

/-- Coerce a Lean string literal to the model. -/
def strOf (s : String) : Str := s.toList

/-- The left brace character. -/
def lb : Char := '\x7b'

/-- The right brace character. -/
def rb : Char := '\x7d'

/-- ASCII model of the JS whitespace class `\s` (also used for
String.prototype.trim). -/
def jsSpace (c : Char) : Bool :=
  c = ' ' || c = '\t' || c = '\n' || c = '\r' || c = '\x0b' || c = '\x0c'

/-- The JS word-character class `\w` = [A-Za-z0-9_]. -/
def isWordChar (c : Char) : Bool :=
  ('a' ≤ c && c ≤ 'z') || ('A' ≤ c && c ≤ 'Z') || ('0' ≤ c && c ≤ '9') || c = '_'

/-- ASCII lowercase character map (model of toLowerCase / the /i flag). -/
def jsToLower (c : Char) : Char :=
  if 'A' ≤ c && c ≤ 'Z' then Char.ofNat (c.toNat + 32) else c

/-- Lowercase a whole string. -/
def jsLowerStr (s : Str) : Str := s.map jsToLower

/-- ASCII uppercase character map (model of toUpperCase on one character). -/
def jsToUpper (c : Char) : Char :=
  if 'a' ≤ c && c ≤ 'z' then Char.ofNat (c.toNat - 32) else c

/-- String.prototype.trim. -/
def jsTrim (s : Str) : Str :=
  ((s.dropWhile jsSpace).reverse.dropWhile jsSpace).reverse

/-- Boolean prefix test (List.isPrefixOf, inlined for easy unfolding). -/
def prefixOf : Str → Str → Bool
  | [], _ => true
  | _ :: _, [] => false
  | p :: ps, c :: cs => p = c && prefixOf ps cs

/-- String.prototype.includes: substring containment. -/
def strContains : Str → Str → Bool
  | s, pat =>
    match s with
    | [] => pat.isEmpty
    | _ :: rest => prefixOf pat s || strContains rest pat

/-- String.prototype.endsWith. -/
def jsEndsWith (s suffix : Str) : Bool := prefixOf suffix.reverse s.reverse

/-- String.prototype.startsWith. -/
def jsStartsWith (s pre : Str) : Bool := prefixOf pre s

/-- String.prototype.indexOf (first occurrence index), for column numbers. -/
def indexOfStr (pat : Str) : Str → Option Nat
  | [] => if pat.isEmpty then some 0 else none
  | c :: rest =>
    if prefixOf pat (c :: rest) then some 0
    else (indexOfStr pat rest).map (· + 1)

/-- String.prototype.split with a single-character separator (keeps empty
fields, exactly like JS split(sep)). -/
def splitOnChar (sep : Char) : Str → List Str
  | [] => [[]]
  | c :: rest =>
    if c = sep then [] :: splitOnChar sep rest
    else
      match splitOnChar sep rest with
      | [] => [[c]]
      | f :: r => (c :: f) :: r

/-- Array.prototype.join with a separator string. -/
def joinWith (sep : Str) : List Str → Str
  | [] => []
  | [x] => x
  | x :: xs => x ++ sep ++ joinWith sep xs

/-- `[...new Set(xs)]` - deduplicate keeping first occurrences. -/
def dedup : List Str → List Str
  | [] => []
  | x :: xs => x :: (dedup xs).filter (fun y => !(y == x))

/-- Association-list lookup used to model JS object property reads. -/
def lookupA {α : Type} (k : Str) : List (Str × α) → Option α
  | [] => none
  | (k2, v) :: rest => if k2 = k then some v else lookupA k rest

/-- `delete obj[k]` on a JS object modelled as an association list. -/
def jsDeleteKey {α : Type} (k : Str) : List (Str × α) → List (Str × α)
  | [] => []
  | (k2, v) :: rest =>
    if k2 = k then jsDeleteKey k rest else (k2, v) :: jsDeleteKey k rest

/-- `obj[k] = v` on a JS object: update in place if the key exists,
otherwise append (JS property order). -/
def jsInsert {α : Type} (k : Str) (v : α) : List (Str × α) → List (Str × α)
  | [] => [(k, v)]
  | (k2, w) :: rest =>
    if k2 = k then (k2, v) :: rest else (k2, w) :: jsInsert k v rest

/-! ## src/lib/flutter-package-manager.ts - pubspec data and operations

`PubspecData.dependencies` / `dev_dependencies` are mutable JS objects and
the claims are about aliasing through the shallow copy `{...pubspecData}`,
so the two maps live in an explicit heap (`DepHeap`) and the record stores
references into it.  The remaining fields are copied by value by the spread
operator, which the record copy models directly. -/

/-- A dependency map (`Record<string, string>`). -/
abbrev DepMap := List (Str × Str)

/-- Heap of dependency-map objects, addressed by reference. -/
abbrev DepHeap := Nat → DepMap

/-- Update one heap cell. -/
def heapSet (h : DepHeap) (r : Nat) (m : DepMap) : DepHeap :=
  fun r2 => if r2 = r then m else h r2

/-- The `flutter:` section of a pubspec (copied by reference by the spread;
its identity is all the claims need, so it is kept as a plain value). -/
structure FlutterSection where
  uses_material_design : Option Bool
  assets : Option (List Str)
  deriving DecidableEq, Repr

/-- PubspecData with the two dependency maps as heap references. -/
structure PubspecData where
  name : Str
  description : Option Str
  version : Str
  environmentSdk : Str
  depsRef : Nat
  devDepsRef : Nat
  flutter : Option FlutterSection
  deriving DecidableEq, Repr

/-- FlutterPackageManager.COMMON_PACKAGES (name → version). -/
def COMMON_PACKAGES : Str → Option Str := fun n =>
  lookupA n [
    (strOf "http", strOf "^1.2.0"),
    (strOf "provider", strOf "^6.1.1"),
    (strOf "riverpod", strOf "^2.4.9"),
    (strOf "flutter_riverpod", strOf "^2.4.9"),
    (strOf "shared_preferences", strOf "^2.2.2"),
    (strOf "path_provider", strOf "^2.1.1"),
    (strOf "sqflite", strOf "^2.3.0"),
    (strOf "image_picker", strOf "^1.0.4"),
    (strOf "camera", strOf "^0.10.5+5"),
    (strOf "geolocator", strOf "^10.1.0"),
    (strOf "connectivity_plus", strOf "^5.0.2"),
    (strOf "url_launcher", strOf "^6.2.1"),
    (strOf "webview_flutter", strOf "^4.4.2"),
    (strOf "firebase_core", strOf "^2.24.2"),
    (strOf "firebase_auth", strOf "^4.15.3"),
    (strOf "cloud_firestore", strOf "^4.13.6"),
    (strOf "dio", strOf "^5.3.2"),
    (strOf "json_annotation", strOf "^4.8.1"),
    (strOf "freezed_annotation", strOf "^2.4.1"),
    (strOf "google_fonts", strOf "^6.1.0"),
    (strOf "cached_network_image", strOf "^3.3.0"),
    (strOf "flutter_svg", strOf "^2.0.9"),
    (strOf "animations", strOf "^2.0.11"),
    (strOf "flutter_staggered_grid_view", strOf "^0.7.0"),
    (strOf "pull_to_refresh", strOf "^2.0.0"),
    (strOf "shimmer", strOf "^3.0.0"),
    (strOf "lottie", strOf "^2.7.0")]

/-- FlutterPackageManager.COMMON_DEV_PACKAGES. -/
def COMMON_DEV_PACKAGES : Str → Option Str := fun n =>
  lookupA n [
    (strOf "flutter_test", strOf "sdk: flutter"),
    (strOf "flutter_lints", strOf "^3.0.0"),
    (strOf "build_runner", strOf "^2.4.7"),
    (strOf "json_serializable", strOf "^6.7.1"),
    (strOf "freezed", strOf "^2.4.6"),
    (strOf "mockito", strOf "^5.4.2"),
    (strOf "integration_test", strOf "sdk: flutter")]

/-- JS `a || b` over an optional string (undefined and the empty string are
falsy). -/
def jsOrStr (a : Option Str) (b : Option Str) : Option Str :=
  match a with
  | some v => if v = [] then b else some v
  | none => b

/-- addPackage: `version || COMMON_PACKAGES[n] || (isDev ?
COMMON_DEV_PACKAGES[n] : null) || '^1.0.0'`, then
`targetDependencies[packageName] = packageVersion`, then return the shallow
copy `{...pubspecData}` (same map references). -/
def addPackage (h : DepHeap) (p : PubspecData) (packageName : Str)
    (version : Option Str) (isDev : Bool) : DepHeap × PubspecData :=
  let targetRef := if isDev then p.devDepsRef else p.depsRef
  let packageVersion :=
    (jsOrStr (jsOrStr (jsOrStr version (COMMON_PACKAGES packageName))
      (if isDev then COMMON_DEV_PACKAGES packageName else none))
      (some (strOf "^1.0.0"))).getD []
  (heapSet h targetRef (jsInsert packageName packageVersion (h targetRef)), p)

/-- removePackage: shallow copy, then `delete newData.dependencies[n]` and
`delete newData.dev_dependencies[n]` - both deletes act on the maps shared
with the input record. -/
def removePackage (h : DepHeap) (p : PubspecData) (packageName : Str) :
    DepHeap × PubspecData :=
  let newData := p
  let h1 := heapSet h newData.depsRef (jsDeleteKey packageName (h newData.depsRef))
  let h2 := heapSet h1 newData.devDepsRef
    (jsDeleteKey packageName (h1 newData.devDepsRef))
  (h2, newData)

/-! Helper lemmas for the pubspec heap operations. -/

theorem lookupA_jsDeleteKey_self {α : Type} (k : Str) (l : List (Str × α)) :
    lookupA k (jsDeleteKey k l) = none := by
  induction l with
  | nil => rfl
  | cons hd tl ih =>
    obtain ⟨k2, v⟩ := hd
    by_cases hk : k2 = k
    · simp [jsDeleteKey, hk, ih]
    · simp [jsDeleteKey, hk, lookupA, ih]

theorem lookupA_jsInsert_self {α : Type} (k : Str) (v : α) (l : List (Str × α)) :
    lookupA k (jsInsert k v l) = some v := by
  induction l with
  | nil => simp [jsInsert, lookupA]
  | cons hd tl ih =>
    obtain ⟨k2, w⟩ := hd
    by_cases hk : k2 = k
    · simp [jsInsert, hk, lookupA]
    · simp [jsInsert, hk, lookupA, ih]

/-- C10: after removePackage the package is gone from both maps *as seen
through the input record's own references* (the shallow copy shares the
maps), the scalar fields are unchanged, the map references are shared, and
an addPackage insertion is likewise visible through the input's map
reference. -/
theorem removePackage_shared_mutation (h : DepHeap) (p : PubspecData)
    (n : Str) (version : Option Str) (isDev : Bool) :
    lookupA n ((removePackage h p n).1 p.depsRef) = none ∧
    lookupA n ((removePackage h p n).1 p.devDepsRef) = none ∧
    (removePackage h p n).2.name = p.name ∧
    (removePackage h p n).2.description = p.description ∧
    (removePackage h p n).2.version = p.version ∧
    (removePackage h p n).2.environmentSdk = p.environmentSdk ∧
    (removePackage h p n).2.flutter = p.flutter ∧
    (removePackage h p n).2.depsRef = p.depsRef ∧
    (removePackage h p n).2.devDepsRef = p.devDepsRef ∧
    (lookupA n ((addPackage h p n version isDev).1
        (if isDev then p.devDepsRef else p.depsRef))).isSome = true := by
  refine ⟨?_, ?_, rfl, rfl, rfl, rfl, rfl, rfl, rfl, ?_⟩
  · by_cases hr : p.depsRef = p.devDepsRef
    · simp [removePackage, heapSet, hr, lookupA_jsDeleteKey_self]
    · simp [removePackage, heapSet, hr, lookupA_jsDeleteKey_self]
  · simp [removePackage, heapSet, lookupA_jsDeleteKey_self]
  · by_cases hd : isDev
    · simp [addPackage, heapSet, hd, lookupA_jsInsert_self]
    · simp [addPackage, heapSet, hd, lookupA_jsInsert_self]

/-! ## src/lib/dart-validator.ts - heuristic Dart validator

Each regex of the validator is embedded as a scanner.  All the scanners use
maximal-munch where the regex's backtracking is deterministic because the
adjacent character classes are disjoint (e.g. `\s` vs a keyword letter,
`\w+` vs `(`); the spots where this holds are noted per definition. -/

/-- Severity of a validation finding. -/
inductive Severity
  | error
  | warning
  | info
  deriving DecidableEq, Repr

/-- DartValidationError record. -/
structure DartValidationError where
  line : Nat
  column : Nat
  message : Str
  severity : Severity
  code : Option Str
  deriving DecidableEq, Repr

/-- DartValidationResult record. -/
structure DartValidationResult where
  isValid : Bool
  errors : List DartValidationError
  warnings : List DartValidationError
  formattedCode : Str
  deriving DecidableEq, Repr

/-- The DART keyword alternation of the declaration regex
`/^\s*(var|final|const|int|double|String|bool|List|Map)\s+/`. -/
def declKeywords : List Str :=
  [strOf "var", strOf "final", strOf "const", strOf "int", strOf "double",
   strOf "String", strOf "bool", strOf "List", strOf "Map"]

/-- `^\s*(kw1|...|kwN)\s+` for all-letter keywords: leading `\s*` must be
the maximal space run (keywords start with letters), then some keyword must
be a prefix followed by one whitespace character. -/
def matchKwSpace (kws : List Str) (line : Str) : Bool :=
  let r := line.dropWhile jsSpace
  kws.any fun kw =>
    prefixOf kw r &&
      (match r.drop kw.length with
       | c :: _ => jsSpace c
       | [] => false)

/-- `/^\s*\w+\s*=/`: maximal munch is exact since `\w`, `\s` and `=` are
pairwise disjoint. -/
def assignPattern (line : Str) : Bool :=
  let r := line.dropWhile jsSpace
  match r with
  | [] => false
  | c :: _ =>
    isWordChar c &&
      (match (r.dropWhile isWordChar).dropWhile jsSpace with
       | '=' :: _ => true
       | _ => false)

/-- `/^\s*kw\s+/` for a single keyword. -/
def kwSpacePattern (kw : Str) (line : Str) : Bool := matchKwSpace [kw] line

/-- `/^\s*kw\s*\(/` (used for `assert` and `super`). -/
def kwParenPattern (kw : Str) (line : Str) : Bool :=
  let r := line.dropWhile jsSpace
  prefixOf kw r &&
    (match (r.drop kw.length).dropWhile jsSpace with
     | '(' :: _ => true
     | _ => false)

/-- DartValidator.shouldHaveSemicolon.  Note the exemptions: the source
tests `trimmed.includes('{')` and `trimmed.includes('=>')` (containment
anywhere) but `trimmed.endsWith('(')`. -/
def shouldHaveSemicolon (line : Str) : Bool :=
  let trimmed := jsTrim line
  if strContains trimmed [lb] || strContains trimmed (strOf "=>") ||
      jsEndsWith trimmed (strOf "(") then
    false
  else
    matchKwSpace declKeywords line || assignPattern line ||
    (kwSpacePattern (strOf "return") line && !jsEndsWith trimmed (strOf "(")) ||
    kwSpacePattern (strOf "throw") line ||
    kwParenPattern (strOf "assert") line ||
    kwParenPattern (strOf "super") line

/-- The typo table of checkCommonTypos (wrong, correct). -/
def typoTable : List (Str × Str) :=
  [(strOf "Stateless", strOf "StatelessWidget"),
   (strOf "Stateful", strOf "StatefulWidget"),
   (strOf "scaffold", strOf "Scaffold"),
   (strOf "appBar", strOf "AppBar"),
   (strOf "container", strOf "Container"),
   (strOf "text", strOf "Text"),
   (strOf "column", strOf "Column"),
   (strOf "row", strOf "Row")]

/-- Occurrence test for `\bw\b` where `w` consists solely of word
characters: some position with a non-word (or absent) character on each
side carries `w`.  `prevWord` tracks whether the previous character is a
word character. -/
def wordOccurAux (w : Str) : Bool → Str → Bool
  | _, [] => false
  | prevWord, c :: rest =>
    (!prevWord && prefixOf w (c :: rest) &&
      (match (c :: rest).drop w.length with
       | [] => true
       | d :: _ => !isWordChar d)) ||
    wordOccurAux w (isWordChar c) rest

/-- `new RegExp("\\b" + w + "\\b").test(line)` for a word-character-only
`w`. -/
def wordOccur (w : Str) (s : Str) : Bool := wordOccurAux w false s

/-- DartValidator.checkCommonTypos: the column is
`line.indexOf(match[0]) + 1`, i.e. the first *plain* occurrence of the
typo word (which can precede the word-boundary occurrence). -/
def checkCommonTypos (line : Str) (lineNumber : Nat) : List DartValidationError :=
  typoTable.flatMap fun t =>
    if wordOccur t.1 line && !strContains line (strOf "//") then
      [{ line := lineNumber,
         column := ((indexOfStr t.1 line).getD 0) + 1,
         message := strOf "Did you mean \x27" ++ t.2 ++ strOf "\x27? Found \x27" ++
           t.1 ++ strOf "\x27",
         severity := .error,
         code := some (strOf "possible_typo") }]
    else []

/-- DartValidator.checkBasicSyntax for one line.  The source's unclosed
bracket check is an intentional no-op (it only computes counts), so only
the missing-semicolon check and the typo check produce errors. -/
def checkBasicSyntax (line : Str) (lineNumber : Nat) : List DartValidationError :=
  if (jsTrim line).isEmpty || jsStartsWith (jsTrim line) (strOf "//") ||
      jsStartsWith (jsTrim line) (strOf "/*") then
    []
  else
    (if shouldHaveSemicolon (jsTrim line) && !jsEndsWith (jsTrim line) (strOf ";") then
      [{ line := lineNumber,
         column := line.length,
         message := strOf "Missing semicolon at end of statement",
         severity := .error,
         code := some (strOf "missing_semicolon") }]
     else []) ++ checkCommonTypos line lineNumber

/-- DartValidator.FLUTTER_WIDGETS. -/
def FLUTTER_WIDGETS : List Str :=
  [strOf "Widget", strOf "StatelessWidget", strOf "StatefulWidget",
   strOf "State", strOf "BuildContext", strOf "Scaffold", strOf "AppBar",
   strOf "Container", strOf "Text", strOf "Column", strOf "Row", strOf "Stack",
   strOf "ListView", strOf "GridView", strOf "Image", strOf "Icon",
   strOf "IconButton", strOf "ElevatedButton", strOf "TextButton",
   strOf "FloatingActionButton", strOf "Card", strOf "Padding", strOf "Margin",
   strOf "Center", strOf "Align", strOf "Expanded", strOf "Flexible",
   strOf "SizedBox", strOf "Divider", strOf "TextField", strOf "TextFormField",
   strOf "DropdownButton", strOf "Checkbox", strOf "Radio", strOf "Switch",
   strOf "Slider", strOf "AlertDialog", strOf "BottomSheet", strOf "Drawer",
   strOf "BottomNavigationBar", strOf "TabBar", strOf "TabBarView",
   strOf "MaterialApp", strOf "CupertinoApp", strOf "Theme", strOf "MediaQuery",
   strOf "SafeArea"]

/-- `/^\s*return\s+\w+\(/` (anchored form used by checkFlutterPatterns);
maximal munch exact: `\s`, letters and `(` are disjoint. -/
def returnWidgetAnchored (s : Str) : Bool :=
  let r := s.dropWhile jsSpace
  prefixOf (strOf "return") r &&
    (match r.drop 6 with
     | c :: _ =>
       jsSpace c &&
         (let r3 := (r.drop 6).dropWhile jsSpace
          match r3 with
          | d :: _ =>
            isWordChar d &&
              (match r3.dropWhile isWordChar with
               | '(' :: _ => true
               | _ => false)
          | [] => false)
     | [] => false)

/-- Generic leftmost-position search: apply a position matcher at every
suffix, earliest success wins (regex unanchored search). -/
def scanFirst {α : Type} (f : Str → Option α) : Str → Option α
  | [] => f []
  | s@(_ :: rest) =>
    match f s with
    | some r => some r
    | none => scanFirst f rest

/-- Position matcher for `/return\s+(\w+)\(/` returning the capture. -/
def findReturnWidgetAt (s : Str) : Option Str :=
  if prefixOf (strOf "return") s then
    match s.drop 6 with
    | c :: _ =>
      if jsSpace c then
        let r3 := (s.drop 6).dropWhile jsSpace
        let name := r3.takeWhile isWordChar
        match name, r3.dropWhile isWordChar with
        | _ :: _, '(' :: _ => some name
        | _, _ => none
      else none
    | [] => none
  else none

/-- Position matcher for `/class\s+(\w+)/` returning the capture. -/
def findClassNameAt (s : Str) : Option Str :=
  if prefixOf (strOf "class") s then
    match s.drop 5 with
    | c :: _ =>
      if jsSpace c then
        let name := ((s.drop 5).dropWhile jsSpace).takeWhile isWordChar
        if name.isEmpty then none else some name
      else none
    | [] => none
  else none

/-- `/^[A-Z][a-zA-Z0-9]*$/`. -/
def pascalCaseOk : Str → Bool
  | [] => false
  | c :: rest =>
    ('A' ≤ c && c ≤ 'Z') &&
      rest.all fun d =>
        ('a' ≤ d && d ≤ 'z') || ('A' ≤ d && d ≤ 'Z') || ('0' ≤ d && d ≤ '9')

/-- `/^[a-z][a-zA-Z0-9]*$/`. -/
def camelCaseOk : Str → Bool
  | [] => false
  | c :: rest =>
    ('a' ≤ c && c ≤ 'z') &&
      rest.all fun d =>
        ('a' ≤ d && d ≤ 'z') || ('A' ≤ d && d ≤ 'Z') || ('0' ≤ d && d ≤ '9')

/-- DartValidator.checkFlutterPatterns for one line (warnings only). -/
def checkFlutterPatterns (line : Str) (lineNumber : Nat) : List DartValidationError :=
  let trimmedLine := jsTrim line
  (if returnWidgetAnchored trimmedLine && !strContains trimmedLine (strOf "const") then
    match scanFirst findReturnWidgetAt trimmedLine with
    | some name =>
      if FLUTTER_WIDGETS.any (· = name) then
        [{ line := lineNumber,
           column := ((indexOfStr name trimmedLine).getD 0) + 1,
           message := strOf "Consider adding \x27const\x27 keyword for better performance: const " ++
             name ++ strOf "(...)",
           severity := .warning,
           code := some (strOf "missing_const") }]
      else []
    | none => []
   else []) ++
  (if strContains trimmedLine (strOf "(\x7b") && strContains trimmedLine (strOf "key") &&
      !strContains trimmedLine (strOf "super.key") then
    [{ line := lineNumber, column := 1,
       message := strOf "Consider using super.key instead of key parameter",
       severity := .warning,
       code := some (strOf "prefer_super_key") }]
   else []) ++
  (match scanFirst findClassNameAt trimmedLine with
   | some className =>
     if !pascalCaseOk className then
       [{ line := lineNumber,
          column := ((indexOfStr className trimmedLine).getD 0) + 1,
          message := strOf "Widget class names should be in PascalCase",
          severity := .warning,
          code := some (strOf "invalid_class_name") }]
     else []
   | none => [])

/-- Position matcher for `/(?:var|final|const)\s+(\w+)/`: at one position
at most one alternative is a prefix (the keywords are not prefixes of one
another). -/
def findVarNameAt (s : Str) : Option Str :=
  [strOf "var", strOf "final", strOf "const"].findSome? fun kw =>
    if prefixOf kw s then
      match s.drop kw.length with
      | c :: _ =>
        if jsSpace c then
          let name := ((s.drop kw.length).dropWhile jsSpace).takeWhile isWordChar
          if name.isEmpty then none else some name
        else none
      | [] => none
    else none

/-- Length bound for dropWhile (helper for termination proofs). -/
theorem length_dropWhile_le {α : Type} (p : α → Bool) (l : List α) :
    (l.dropWhile p).length ≤ l.length := by
  induction l with
  | nil => simp [List.dropWhile]
  | cons c rest ih =>
    by_cases hc : p c <;> simp [List.dropWhile, hc] <;> omega

/-- The single-quote character. -/
def sqc : Char := '\x27'

/-- Not-a-single-quote class `[^']`. -/
def notSq (c : Char) : Bool := !(c = sqc)

/-- Global matches of `/'[^']{10,}'/g`, full match text included (the run
between the quotes is maximal, so greediness is deterministic); on a failed
position the scan advances one character, on success it resumes after the
closing quote. -/
def sqMatches : Str → List Str
  | [] => []
  | c :: rest =>
    if c = sqc then
      match h : rest.dropWhile notSq with
      | _ :: rest2 =>
        let run := rest.takeWhile notSq
        if run.length ≥ 10 then
          (sqc :: run ++ [sqc]) :: sqMatches rest2
        else sqMatches rest
      | [] => sqMatches rest
    else sqMatches rest
termination_by s => s.length
decreasing_by
  all_goals simp only [List.length_cons]
  · have h2 := length_dropWhile_le notSq rest
    rw [h] at h2
    simp only [List.length_cons] at h2
    omega
  · omega
  · omega
  · omega

/-- DartValidator.checkBestPractices for one line (warnings only). -/
def checkBestPractices (line : Str) (lineNumber : Nat) : List DartValidationError :=
  let trimmedLine := jsTrim line
  (match scanFirst findVarNameAt trimmedLine with
   | some varName =>
     if !strContains trimmedLine (strOf "(") && !strContains trimmedLine (strOf "extends") &&
        !camelCaseOk varName && !jsStartsWith varName (strOf "_") then
       [{ line := lineNumber,
          column := ((indexOfStr varName trimmedLine).getD 0) + 1,
          message := strOf "Variable names should be in camelCase",
          severity := .warning,
          code := some (strOf "invalid_variable_name") }]
     else []
   | none => []) ++
  ((sqMatches trimmedLine).flatMap fun str =>
    if !strContains trimmedLine (strOf "//") && !strContains trimmedLine (strOf "import") &&
       str.length > 20 then
      [{ line := lineNumber,
         column := ((indexOfStr str trimmedLine).getD 0) + 1,
         message := strOf "Consider extracting long strings to constants or localization",
         severity := .info,
         code := some (strOf "long_string_literal") }]
    else []) ++
  (if strContains trimmedLine (strOf "setState") && !strContains trimmedLine (strOf "() =>") then
    [{ line := lineNumber,
       column := ((indexOfStr (strOf "setState") trimmedLine).getD 0) + 1,
       message := strOf "Consider using setState(() => \x7b ... \x7d) for better readability",
       severity := .info,
       code := some (strOf "setState_style") }]
   else [])

/-- DartValidator.checkOverallStructure (errors only - all three pushes in
the source are severity error at line 1, column 1). -/
def checkOverallStructure (code : Str) : List DartValidationError :=
  (if (strContains code (strOf "StatelessWidget") || strContains code (strOf "StatefulWidget")) &&
      !strContains code (strOf "import \x27package:flutter/material.dart\x27") then
    [{ line := 1, column := 1,
       message := strOf "Missing required import: import \x27package:flutter/material.dart\x27;",
       severity := .error,
       code := some (strOf "missing_import") }]
   else []) ++
  (if strContains code (strOf "extends StatefulWidget") &&
      !strContains code (strOf "extends State<") then
    [{ line := 1, column := 1,
       message := strOf "StatefulWidget requires a corresponding State class",
       severity := .error,
       code := some (strOf "missing_state_class") }]
   else []) ++
  (if (strContains code (strOf "extends StatelessWidget") || strContains code (strOf "extends State<")) &&
      !strContains code (strOf "Widget build(BuildContext context)") then
    [{ line := 1, column := 1,
       message := strOf "Widget classes must have a build method",
       severity := .error,
       code := some (strOf "missing_build_method") }]
   else [])

/-- Operator class of the first spacing regex
`/(\w)([+\-*\/%=<>!&|])(\w)/`. -/
def opClass1 (c : Char) : Bool := (strOf "+-*/%=<>!&|").any (· = c)

/-- Operator class of the second spacing regex `/(\w)([+\-*\/%])(\w)/`. -/
def opClass2 (c : Char) : Bool := (strOf "+-*/%").any (· = c)

/-- One global pass of `word-op-word → word space op space word`;
replacement text is not rescanned, scanning resumes after the three
matched characters. -/
def spaceOps (p : Char → Bool) : Str → Str
  | c1 :: c2 :: c3 :: rest =>
    if isWordChar c1 && p c2 && isWordChar c3 then
      c1 :: ' ' :: c2 :: ' ' :: c3 :: spaceOps p rest
    else c1 :: spaceOps p (c2 :: c3 :: rest)
  | s => s
termination_by s => s.length
decreasing_by all_goals simp_arith

/-- One global pass of `/sep(\S)/g → 'sep $1'` (used with `,` and `;`). -/
def spaceAfter (sep : Char) : Str → Str
  | c1 :: c2 :: rest =>
    if c1 = sep && !jsSpace c2 then c1 :: ' ' :: c2 :: spaceAfter sep rest
    else c1 :: spaceAfter sep (c2 :: rest)
  | s => s
termination_by s => s.length
decreasing_by all_goals simp_arith

/-- The re-indentation loop of formatDartCode.  The source's extra
disjuncts (`startsWith('})')` etc., and the `/\{\s*$/` matches) are
implied by the simple startsWith/endsWith checks on a trimmed line; they
are kept literally anyway.  `Math.max(0, l-1)` is Nat subtraction. -/
def indentLines : Nat → List Str → List Str
  | _, [] => []
  | level, line :: rest =>
    let trimmed := jsTrim line
    if trimmed.isEmpty then [] :: indentLines level rest
    else
      let lvl1 :=
        if jsStartsWith trimmed (strOf "\x7d") || jsStartsWith trimmed (strOf "]") ||
           jsStartsWith trimmed (strOf ")") || jsStartsWith trimmed (strOf "\x7d)") ||
           jsStartsWith trimmed (strOf "],") || jsStartsWith trimmed (strOf "),") then
          level - 1
        else level
      let indented := List.replicate (lvl1 * 2) ' ' ++ trimmed
      let lvl2 :=
        if jsEndsWith trimmed (strOf "\x7b") || jsEndsWith trimmed (strOf "[") ||
           jsEndsWith trimmed (strOf "(") then
          lvl1 + 1
        else lvl1
      indented :: indentLines lvl2 rest

/-- DartValidator.formatDartCode. -/
def formatDartCode (code : Str) : Str :=
  joinWith (strOf "\n")
    (indentLines 0
      (splitOnChar '\n'
        (spaceAfter ';' (spaceAfter ',' (spaceOps opClass2 (spaceOps opClass1 code))))))

/-- The per-line error collection of validateDartCode (line numbers are
1-based). -/
def collectBasicErrors : Nat → List Str → List DartValidationError
  | _, [] => []
  | i, line :: rest => checkBasicSyntax line (i + 1) ++ collectBasicErrors (i + 1) rest

/-- The per-line warning collection of validateDartCode (Flutter patterns
then best practices, per line). -/
def collectWarnings : Nat → List Str → List DartValidationError
  | _, [] => []
  | i, line :: rest =>
    checkFlutterPatterns line (i + 1) ++ checkBestPractices line (i + 1) ++
      collectWarnings (i + 1) rest

/-- DartValidator.validateDartCode. -/
def validateDartCode (code : Str) : DartValidationResult :=
  let lines := splitOnChar '\n' code
  let errors := collectBasicErrors 0 lines ++ checkOverallStructure code
  let warnings := collectWarnings 0 lines
  { isValid := errors.length == 0,
    errors := errors,
    warnings := warnings,
    formattedCode := formatDartCode code }

/-! ### analyzeComplexity -/

/-- The decision-point alternation
`/\b(if|else|for|while|case|catch|&&|\|\||\?)\b/g`: each token with the
wordness of its first and last character (used for the `\b` boundary
conditions - for `&&`, `||`, `?` the boundary forces an *adjacent word
character*, so e.g. `a && b` with spaces does not match). -/
def decisionTokens : List (Str × Bool × Bool) :=
  [(strOf "if", true, true), (strOf "else", true, true),
   (strOf "for", true, true), (strOf "while", true, true),
   (strOf "case", true, true), (strOf "catch", true, true),
   (strOf "&&", false, false), (strOf "||", false, false),
   (strOf "?", false, false)]

/-- Try the decision-token alternation at one position.  `prevWord` is the
wordness of the preceding character (false at the start of the string);
`\b` holds where the two adjacent wordnesses differ.  No token is a prefix
of another, so at most one alternative fires and the alternation order is
immaterial.  Returns (token length, wordness of its last character). -/
def tokenMatchAt (prevWord : Bool) (s : Str) : Option (Nat × Bool) :=
  decisionTokens.findSome? fun t =>
    if (prefixOf t.1 s && (prevWord != t.2.1) &&
        (match s.drop t.1.length with
         | [] => t.2.2
         | d :: _ => t.2.2 != isWordChar d)) then
      some (t.1.length, t.2.2)
    else none

/-- A successful prefix match is no longer than the string. -/
theorem prefixOf_length_le : ∀ p s : Str, prefixOf p s = true → p.length ≤ s.length := by
  intro p
  induction p with
  | nil => intro s _; simp
  | cons c cs ih =>
    intro s hp
    cases s with
    | nil => simp [prefixOf] at hp
    | cons d ds =>
      simp only [prefixOf, Bool.and_eq_true] at hp
      have := ih ds hp.2
      simp only [List.length_cons]
      omega

/-- tokenMatchAt only reports lengths between 1 and the string length. -/
theorem tokenMatchAt_length (pw : Bool) (s : Str) (len : Nat) (b : Bool)
    (h : tokenMatchAt pw s = some (len, b)) : 1 ≤ len ∧ len ≤ s.length := by
  unfold tokenMatchAt at h
  obtain ⟨t, ht, hf⟩ := List.exists_of_findSome?_eq_some h
  split at hf
  · rename_i hc
    have hlen : t.1.length = len := congrArg Prod.fst (Option.some.inj hf)
    simp only [Bool.and_eq_true] at hc
    have hpre : prefixOf t.1 s = true := hc.1.1
    have hne : t.1 ≠ [] := by
      have hall : ∀ u ∈ decisionTokens, u.1 ≠ [] := by decide
      exact hall t ht
    have hpos : 0 < t.1.length := List.length_pos.mpr hne
    have hle := prefixOf_length_le t.1 s hpre
    omega
  · exact absurd hf (by simp)

/-- The global decision-point count of analyzeComplexity: leftmost scan,
jumping over each match. -/
def countTokensAux (pw : Bool) (s : Str) : Nat :=
  match s with
  | [] => 0
  | c :: rest =>
    match h : tokenMatchAt pw (c :: rest) with
    | some (len, lastW) => 1 + countTokensAux lastW ((c :: rest).drop len)
    | none => countTokensAux (isWordChar c) rest
termination_by s.length
decreasing_by
  · have hb := tokenMatchAt_length _ _ _ _ h
    simp only [List.length_drop, List.length_cons] at hb ⊢
    omega
  · simp only [List.length_cons]
    omega

/-- Position matcher for the method-count regex
`/\b(\w+)\s*\([^)]*\)\s*\x7b/g`; returns the rest of the string after
the matched text.  Deterministic maximal munch: `\w`/`\s`/`(` disjoint,
`[^)]*` runs to the first `)`, `\s`/`\x7b` disjoint. -/
def methodMatchAt (prevWord : Bool) (s : Str) : Option Str :=
  if prevWord then none
  else if (s.takeWhile isWordChar).isEmpty then none
  else
    match (s.dropWhile isWordChar).dropWhile jsSpace with
    | '(' :: r2 =>
      match r2.dropWhile (fun c => !(c = ')')) with
      | ')' :: r3 =>
        match r3.dropWhile jsSpace with
        | '\x7b' :: r4 => some r4
        | _ => none
      | _ => none
    | _ => none

/-- methodMatchAt strictly shrinks the string. -/
theorem methodMatchAt_length (pw : Bool) (s r : Str)
    (h : methodMatchAt pw s = some r) : r.length < s.length := by
  unfold methodMatchAt at h
  split at h
  · exact absurd h (by simp)
  · split at h
    · exact absurd h (by simp)
    · split at h
      · rename_i r2 h1
        split at h
        · rename_i r3 h2
          split at h
          · rename_i r4 h3
            have hr : r4 = r := Option.some.inj h
            rw [← hr]
            have b4 : r4.length < r3.length := by
              have := length_dropWhile_le jsSpace r3
              rw [h3] at this
              simp only [List.length_cons] at this
              omega
            have b3 : r3.length < r2.length := by
              have := length_dropWhile_le (fun c => !(c = ')')) r2
              rw [h2] at this
              simp only [List.length_cons] at this
              omega
            have b2 : r2.length < s.length := by
              have ha := length_dropWhile_le jsSpace (s.dropWhile isWordChar)
              have hb := length_dropWhile_le isWordChar s
              rw [h1] at ha
              simp only [List.length_cons] at ha
              omega
            omega
          · exact absurd h (by simp)
        · exact absurd h (by simp)
      · exact absurd h (by simp)

/-- The global method count: leftmost scan, jump over matches, track the
wordness of the previous character for the `\b`. -/
def countMethodsAux (pw : Bool) (s : Str) : Nat :=
  match s with
  | [] => 0
  | c :: rest =>
    match h : methodMatchAt pw (c :: rest) with
    | some r => 1 + countMethodsAux false r
    | none => countMethodsAux (isWordChar c) rest
termination_by s.length
decreasing_by
  · exact methodMatchAt_length _ _ _ h
  · simp only [List.length_cons]
    omega

/-- The nesting-depth loop: per line, depth += openBraces - closeBraces;
the running depth is a JS number and may go negative, the maximum is
tracked. -/
def nestingAux : Int → Int → List Str → Int
  | _, maxD, [] => maxD
  | cur, maxD, l :: rest =>
    let cur2 := cur + (l.filter (fun c => c = lb)).length -
      (l.filter (fun c => c = rb)).length
    nestingAux cur2 (max maxD cur2) rest

/-- The result record of analyzeComplexity. -/
structure ComplexityResult where
  cyclomaticComplexity : Nat
  linesOfCode : Nat
  numberOfMethods : Nat
  nestingDepth : Int
  deriving DecidableEq, Repr

/-- DartValidator.analyzeComplexity. -/
def analyzeComplexity (code : Str) : ComplexityResult :=
  let lines := (splitOnChar '\n' code).filter fun l =>
    !(jsTrim l).isEmpty && !jsStartsWith (jsTrim l) (strOf "//")
  { cyclomaticComplexity := countTokensAux false code + 1,
    linesOfCode := lines.length,
    numberOfMethods := countMethodsAux false code,
    nestingDepth := nestingAux 0 0 lines }

/-! ## Claims C6 and C8 - validator findings -/

/-- dropWhile is idempotent. -/
theorem dropWhile_dropWhile {α : Type} (p : α → Bool) (l : List α) :
    (l.dropWhile p).dropWhile p = l.dropWhile p := by
  induction l with
  | nil => rfl
  | cons c rest ih =>
    by_cases hc : p c
    · simp [List.dropWhile_cons, hc, ih]
    · simp [List.dropWhile_cons, hc]

/-- The head of a dropWhile result fails the predicate. -/
theorem head?_dropWhile_not {α : Type} (p : α → Bool) (l : List α) :
    ∀ c, (l.dropWhile p).head? = some c → p c = false := by
  induction l with
  | nil => intro c h; simp at h
  | cons c2 rest ih =>
    intro c h
    by_cases hc : p c2
    · rw [List.dropWhile_cons, if_pos hc] at h
      exact ih c h
    · rw [List.dropWhile_cons, if_neg hc] at h
      simp only [List.head?_cons, Option.some.injEq] at h
      subst h
      simpa using hc

/-- String.prototype.trim is idempotent. -/
theorem jsTrim_idem (s : Str) : jsTrim (jsTrim s) = jsTrim s := by
  unfold jsTrim
  set a := s.dropWhile jsSpace with ha
  set b := a.reverse.dropWhile jsSpace with hb
  have h1 : b.reverse.dropWhile jsSpace = b.reverse := by
    have hsplit : a.reverse.takeWhile jsSpace ++ b = a.reverse := by
      rw [hb]; exact List.takeWhile_append_dropWhile _ _
    have ha2 : b.reverse ++ (a.reverse.takeWhile jsSpace).reverse = a := by
      have h2 := congrArg List.reverse hsplit
      rwa [List.reverse_append, List.reverse_reverse] at h2
    cases hbr : b.reverse with
    | nil => simp
    | cons c rest =>
      have hhead : a.head? = some c := by
        rw [← ha2, hbr]; rfl
      have hc : jsSpace c = false := by
        apply head?_dropWhile_not jsSpace s
        rw [← ha]; exact hhead
      rw [List.dropWhile_cons, if_neg (by simp [hc])]
  rw [h1, List.reverse_reverse, hb, dropWhile_dropWhile]

/-- The non-empty/non-comment guard of checkBasicSyntax, as a predicate. -/
def lineNonComment (line : Str) : Bool :=
  !(jsTrim line).isEmpty && !jsStartsWith (jsTrim line) (strOf "//") &&
    !jsStartsWith (jsTrim line) (strOf "/*")

/-- The statement-starting patterns named by the spec sentence (declaration
keywords, assignment, return, throw, `assert(`, `super(` at line start). -/
def specStatementPattern (line : Str) : Bool :=
  matchKwSpace declKeywords line || assignPattern line ||
  kwSpacePattern (strOf "return") line || kwSpacePattern (strOf "throw") line ||
  kwParenPattern (strOf "assert") line || kwParenPattern (strOf "super") line

/-- C6's predicate exactly as claimed: statement pattern, does not end in
`;`, and does not *end* in one of the exempt tokens. -/
def claimFlagSemicolon (line : Str) : Bool :=
  specStatementPattern (jsTrim line) && !jsEndsWith (jsTrim line) (strOf ";") &&
  !jsEndsWith (jsTrim line) [lb] && !jsEndsWith (jsTrim line) (strOf "=>") &&
  !jsEndsWith (jsTrim line) (strOf "(")

/-- The amended predicate: the code exempts lines *containing* a brace or
an arrow anywhere (includes, not endsWith), and lines ending in an open
parenthesis. -/
def specAmendedFlagSemicolon (line : Str) : Bool :=
  specStatementPattern (jsTrim line) && !jsEndsWith (jsTrim line) (strOf ";") &&
  !strContains (jsTrim line) [lb] && !strContains (jsTrim line) (strOf "=>") &&
  !jsEndsWith (jsTrim line) (strOf "(")

/-- The code's flag condition on a line coincides with the amended
predicate (the redundant `!endsWith('(')` on the return disjunct is
absorbed by the global exemption). -/
theorem flagSemicolon_eq_specAmended (line : Str) :
    (shouldHaveSemicolon (jsTrim line) && !jsEndsWith (jsTrim line) (strOf ";")) =
      specAmendedFlagSemicolon line := by
  unfold shouldHaveSemicolon specAmendedFlagSemicolon specStatementPattern
  rw [jsTrim_idem]
  by_cases h1 : strContains (jsTrim line) [lb]
  · simp [h1]
  · by_cases h2 : strContains (jsTrim line) (strOf "=>")
    · simp [h1, h2]
    · by_cases h3 : jsEndsWith (jsTrim line) (strOf "(")
      · simp [h1, h2, h3]
      · simp only [h1, h2, h3, Bool.false_eq_true, or_self, if_false,
          Bool.not_false, Bool.and_true]
        cases hsc : jsEndsWith (jsTrim line) (strOf ";") <;>
          simp [kwSpacePattern] <;> tauto

/-- Every error produced by checkCommonTypos is a possible_typo at the
given line. -/
theorem mem_checkCommonTypos (line : Str) (n : Nat) (e : DartValidationError)
    (he : e ∈ checkCommonTypos line n) :
    e.line = n ∧ e.code = some (strOf "possible_typo") := by
  unfold checkCommonTypos at he
  rw [List.mem_flatMap] at he
  obtain ⟨t, _, hmem⟩ := he
  split at hmem
  · rw [List.mem_singleton] at hmem
    subst hmem
    exact ⟨rfl, rfl⟩
  · simp at hmem

/-- Every error produced by checkOverallStructure has a code other than
missing_semicolon. -/
theorem mem_checkOverallStructure (code : Str) (e : DartValidationError)
    (he : e ∈ checkOverallStructure code) :
    e.code ≠ some (strOf "missing_semicolon") := by
  unfold checkOverallStructure at he
  rcases List.mem_append.mp he with h12 | h3
  · rcases List.mem_append.mp h12 with h1 | h2
    · split at h1
      · rw [List.mem_singleton] at h1
        subst h1
        decide
      · simp at h1
    · split at h2
      · rw [List.mem_singleton] at h2
        subst h2
        decide
      · simp at h2
  · split at h3
    · rw [List.mem_singleton] at h3
      subst h3
      decide
    · simp at h3

/-- Every error of checkBasicSyntax carries the given line number. -/
theorem mem_checkBasicSyntax_line (line : Str) (n : Nat) (e : DartValidationError)
    (he : e ∈ checkBasicSyntax line n) : e.line = n := by
  unfold checkBasicSyntax at he
  split at he
  · simp at he
  · rcases List.mem_append.mp he with h1 | h2
    · split at h1
      · rw [List.mem_singleton] at h1
        subst h1
        rfl
      · simp at h1
    · exact (mem_checkCommonTypos line n e h2).1

/-- checkBasicSyntax emits a missing_semicolon error exactly when the line
is non-empty/non-comment and the (amended) flag condition holds. -/
theorem checkBasicSyntax_semicolon_iff (line : Str) (n : Nat) :
    (∃ e ∈ checkBasicSyntax line n, e.code = some (strOf "missing_semicolon")) ↔
      (lineNonComment line = true ∧ specAmendedFlagSemicolon line = true) := by
  rw [← flagSemicolon_eq_specAmended]
  unfold checkBasicSyntax lineNonComment
  by_cases hskip : ((jsTrim line).isEmpty || jsStartsWith (jsTrim line) (strOf "//") ||
      jsStartsWith (jsTrim line) (strOf "/*")) = true
  · rw [if_pos hskip]
    constructor
    · rintro ⟨e, he, _⟩
      simp at he
    · rintro ⟨hnc, _⟩
      simp only [Bool.or_eq_true] at hskip
      rcases hskip with (h | h) | h <;> simp [h] at hnc
  · rw [if_neg hskip]
    have hnc : (!(jsTrim line).isEmpty && !jsStartsWith (jsTrim line) (strOf "//") &&
        !jsStartsWith (jsTrim line) (strOf "/*")) = true := by
      simp only [Bool.or_eq_true, not_or, Bool.not_eq_true] at hskip
      obtain ⟨⟨hA, hB⟩, hC⟩ := hskip
      simp [hA, hB, hC]
    constructor
    · rintro ⟨e, he, hcode⟩
      rcases List.mem_append.mp he with h1 | h2
      · split at h1
        · rename_i hflag
          exact ⟨hnc, hflag⟩
        · simp at h1
      · have := (mem_checkCommonTypos line n e h2).2
        rw [this] at hcode
        exact absurd hcode (by decide)
    · rintro ⟨_, hflag⟩
      refine ⟨⟨n, line.length, strOf "Missing semicolon at end of statement",
          Severity.error, some (strOf "missing_semicolon")⟩,
        List.mem_append.mpr (Or.inl ?_), rfl⟩
      rw [if_pos hflag]
      exact List.mem_singleton.mpr rfl

/-- Membership in the per-line error collection. -/
theorem mem_collectBasicErrors (e : DartValidationError) :
    ∀ (j : Nat) (lines : List Str),
      e ∈ collectBasicErrors j lines ↔
        ∃ k line, lines[k]? = some line ∧ e ∈ checkBasicSyntax line (j + k + 1) := by
  intro j lines
  induction lines generalizing j with
  | nil => simp [collectBasicErrors]
  | cons l rest ih =>
    simp only [collectBasicErrors, List.mem_append]
    constructor
    · rintro (h | h)
      · exact ⟨0, l, by simp, by simpa using h⟩
      · obtain ⟨k, line, hk, hmem⟩ := (ih (j + 1)).mp h
        refine ⟨k + 1, line, by simpa using hk, ?_⟩
        have harith : j + 1 + k + 1 = j + (k + 1) + 1 := by omega
        rwa [harith] at hmem
    · rintro ⟨k, line, hk, hmem⟩
      cases k with
      | zero =>
        left
        simp only [List.getElem?_cons_zero, Option.some.injEq] at hk
        subst hk
        simpa using hmem
      | succ k2 =>
        right
        refine (ih (j + 1)).mpr ⟨k2, line, by simpa using hk, ?_⟩
        have harith : j + (k2 + 1) + 1 = j + 1 + k2 + 1 := by omega
        rwa [harith] at hmem

/-- C6 (amended): validateDartCode flags missing_semicolon for line i+1
exactly when the i-th line is non-empty/non-comment, matches a
statement-starting pattern, does not end in `;`, does not *contain* a brace
or `=>`, and does not end in `(`; and the spec's concrete two-line example
is flagged at line 1. -/
theorem missingSemicolon_flag_characterization :
    (∀ (code : Str) (i : Nat),
      (∃ e ∈ (validateDartCode code).errors,
        e.code = some (strOf "missing_semicolon") ∧ e.line = i + 1) ↔
      (∃ line, (splitOnChar '\n' code)[i]? = some line ∧
        lineNonComment line = true ∧ specAmendedFlagSemicolon line = true)) ∧
    (∃ e ∈ (validateDartCode
        (strOf "var message = \"Hello World\"\nreturn Text(message);")).errors,
      e.code = some (strOf "missing_semicolon") ∧ e.line = 1) := by
  constructor
  · intro code i
    constructor
    · rintro ⟨e, he, hcode, hline⟩
      have he2 : e ∈ collectBasicErrors 0 (splitOnChar '\n' code) := by
        rcases List.mem_append.mp he with h | h
        · exact h
        · exact absurd hcode (mem_checkOverallStructure code e h)
      obtain ⟨k, line, hk, hmem⟩ := (mem_collectBasicErrors e 0 _).mp he2
      have hkk : k = i := by
        have := mem_checkBasicSyntax_line line (0 + k + 1) e hmem
        omega
      subst hkk
      have hchar := (checkBasicSyntax_semicolon_iff line (0 + k + 1)).mp ⟨e, hmem, hcode⟩
      exact ⟨line, hk, hchar.1, hchar.2⟩
    · rintro ⟨line, hk, hnc, hflag⟩
      obtain ⟨e, hmem, hcode⟩ :=
        (checkBasicSyntax_semicolon_iff line (0 + i + 1)).mpr ⟨hnc, hflag⟩
      refine ⟨e, List.mem_append.mpr (Or.inl ?_), hcode, ?_⟩
      · exact (mem_collectBasicErrors e 0 _).mpr ⟨i, line, hk, hmem⟩
      · have := mem_checkBasicSyntax_line line (0 + i + 1) e hmem
        omega
  · decide

/-- C6 (counterexample to the claim as stated): a `var` declaration line
that contains braces in the middle but does not *end* with one satisfies
the claimed flag condition, yet the code reports no missing_semicolon
because the exemption tests containment, not suffix. -/
theorem missingSemicolon_endswith_claim_false :
    claimFlagSemicolon (strOf "var x = \x7b\x27a\x27: 1\x7d.toString()") = true ∧
    lineNonComment (strOf "var x = \x7b\x27a\x27: 1\x7d.toString()") = true ∧
    ((validateDartCode (strOf "var x = \x7b\x27a\x27: 1\x7d.toString()")).errors.all
      fun e => !(e.code == some (strOf "missing_semicolon"))) = true := by
  refine ⟨by decide, by decide, by decide⟩

/-- C8: validateDartCode is a total function (the embedding returns a
result for every input, mirroring the throw-free source) and isValid holds
exactly when the errors list is empty; warnings do not enter the
condition. -/
theorem validateDartCode_isValid_iff_errors_empty (code : Str) :
    (validateDartCode code).isValid = true ↔ (validateDartCode code).errors = [] := by
  show (((collectBasicErrors 0 (splitOnChar '\n' code)) ++ checkOverallStructure code).length == 0) = true ↔ _
  rw [beq_iff_eq, List.length_eq_zero]
  exact Iff.rfl

/-! ## Claim C7 - cyclomatic complexity -/

/-- Wordness of an optional character (absent counts as non-word, which is
how `\b` treats the string edges). -/
def optWord : Option Char → Bool
  | some c => isWordChar c
  | none => false

/-- Wordness of the character before position i (pw at position 0). -/
def prevWordAt (pw : Bool) (s : Str) (i : Nat) : Bool :=
  match i with
  | 0 => pw
  | j + 1 => optWord s[j]?

/-- A decision token occurs at position i with both `\b` boundaries
satisfied (the relative form: `pw` supplies the wordness of the character
preceding the whole string). -/
def tokenAtPosRel (pw : Bool) (s : Str) (i : Nat) : Bool :=
  decisionTokens.any fun t =>
    prefixOf t.1 (s.drop i) && (prevWordAt pw s i != t.2.1) &&
    (match (s.drop i).drop t.1.length with
     | [] => t.2.2
     | d :: _ => t.2.2 != isWordChar d)

/-- The claim-side count: positions at which one of the decision tokens
occurs with word-boundary conditions on both sides. -/
def specCountDecision (s : Str) : Nat :=
  (List.range s.length).countP (tokenAtPosRel false s)

/-- The claim-side count for C7 as literally stated: plain substring
occurrences of the decision tokens, without boundary conditions. -/
def claimTokenOccurrences (s : Str) : Nat :=
  (List.range s.length).countP fun i =>
    decisionTokens.any fun t => prefixOf t.1 (s.drop i)

/-- findSome? is some exactly when some element succeeds. -/
theorem findSome?_isSome_any {α β : Type} (f : α → Option β) (l : List α) :
    (l.findSome? f).isSome = l.any fun a => (f a).isSome := by
  induction l with
  | nil => simp [List.findSome?]
  | cons a l ih =>
    rw [List.findSome?_cons]
    cases hf : f a <;> simp [hf, ih]

/-- The scanner's match test at a position agrees with the positional
predicate at offset 0. -/
theorem tokenMatchAt_isSome (pw : Bool) (s : Str) :
    (tokenMatchAt pw s).isSome = tokenAtPosRel pw s 0 := by
  unfold tokenMatchAt tokenAtPosRel
  rw [findSome?_isSome_any]
  have hfun : ∀ t : Str × Bool × Bool,
      ((if (prefixOf t.1 s && (pw != t.2.1) &&
          (match s.drop t.1.length with
           | [] => t.2.2
           | d :: _ => t.2.2 != isWordChar d)) = true then
        some (t.1.length, t.2.2) else none).isSome) =
      (prefixOf t.1 (s.drop 0) && (prevWordAt pw s 0 != t.2.1) &&
        (match (s.drop 0).drop t.1.length with
         | [] => t.2.2
         | d :: _ => t.2.2 != isWordChar d)) := by
    intro t
    simp only [List.drop_zero, prevWordAt]
    split <;> simp_all
  calc (decisionTokens.any fun t =>
          ((if (prefixOf t.1 s && (pw != t.2.1) &&
              (match s.drop t.1.length with
               | [] => t.2.2
               | d :: _ => t.2.2 != isWordChar d)) = true then
            some (t.1.length, t.2.2) else none).isSome))
      = _ := by
        apply congrArg
        funext t
        exact hfun t

/-- Uniform wordness of the decision tokens: every token is non-empty, its
first/last wordness flags agree, and all its characters share that
wordness. -/
theorem decisionTokens_uniform : ∀ t ∈ decisionTokens,
    t.1 ≠ [] ∧ t.2.1 = t.2.2 ∧ ∀ c ∈ t.1, isWordChar c = t.2.1 := by
  decide

/-- Indexing through a successful prefix match. -/
theorem prefixOf_getElem : ∀ (p s : Str), prefixOf p s = true →
    ∀ j, j < p.length → s[j]? = p[j]? := by
  intro p
  induction p with
  | nil => intro s _ j hj; simp at hj
  | cons a p ih =>
    intro s hp j hj
    cases s with
    | nil => simp [prefixOf] at hp
    | cons b s2 =>
      simp only [prefixOf, Bool.and_eq_true, decide_eq_true_eq] at hp
      cases j with
      | zero => simp [hp.1]
      | succ j2 =>
        simp only [List.getElem?_cons_succ]
        exact ih s2 hp.2 j2 (by simpa using hj)

/-- No token can match at a position whose two adjacent characters have
equal wordness (the leading `\b` and the leading token character cannot
both be satisfied). -/
theorem tokenAtPosRel_false_of_eq (pw : Bool) (s : Str) (i : Nat)
    (hi : 1 ≤ i) (heq : optWord s[i - 1]? = optWord s[i]?) :
    tokenAtPosRel pw s i = false := by
  unfold tokenAtPosRel
  rw [List.any_eq_false]
  intro t ht
  intro hcond
  simp only [Bool.and_eq_true] at hcond
  obtain ⟨⟨hpre, hbound⟩, _⟩ := hcond
  obtain ⟨hne, _, huni⟩ := decisionTokens_uniform t ht
  -- head character of the candidate is s[i]
  obtain ⟨c0, t2, ht1⟩ : ∃ c0 t2, t.1 = c0 :: t2 := by
    cases htt : t.1 with
    | nil => exact absurd htt hne
    | cons x xs => exact ⟨x, xs, rfl⟩
  have hs0 : s[i]? = some c0 := by
    have := prefixOf_getElem t.1 (s.drop i) hpre 0 (by simp [ht1])
    rw [List.getElem?_drop, Nat.add_zero] at this
    rw [this, ht1]
    simp
  have hw0 : isWordChar c0 = t.2.1 := huni c0 (by simp [ht1])
  have hprev : prevWordAt pw s i = optWord s[i - 1]? := by
    cases i with
    | zero => omega
    | succ j => simp [prevWordAt]
  rw [hprev, heq, hs0] at hbound
  simp only [optWord] at hbound
  rw [hw0] at hbound
  simp at hbound

/-- Shifting the positional predicate across a drop. -/
theorem tokenAtPosRel_drop (pw pw2 : Bool) (s : Str) (k : Nat) (hk : 1 ≤ k)
    (hpw2 : pw2 = optWord s[k - 1]?) (j : Nat) :
    tokenAtPosRel pw2 (s.drop k) j = tokenAtPosRel pw s (k + j) := by
  unfold tokenAtPosRel
  apply congrArg
  funext t
  have hdrop : (s.drop k).drop j = s.drop (k + j) := by
    rw [List.drop_drop]
    try rw [Nat.add_comm]
  have hprev : prevWordAt pw2 (s.drop k) j = prevWordAt pw s (k + j) := by
    cases j with
    | zero =>
      cases k with
      | zero => omega
      | succ k1 =>
        simp only [prevWordAt, hpw2]
        norm_num
    | succ j1 =>
      simp only [prevWordAt, List.getElem?_drop]
      rfl
  rw [hdrop, hprev]

/-- Extraction form of a successful tokenMatchAt. -/
theorem tokenMatchAt_spec (pw : Bool) (s : Str) (len : Nat) (b : Bool)
    (h : tokenMatchAt pw s = some (len, b)) :
    ∃ t ∈ decisionTokens, len = t.1.length ∧ b = t.2.2 ∧ prefixOf t.1 s = true := by
  unfold tokenMatchAt at h
  obtain ⟨t, ht, hf⟩ := List.exists_of_findSome?_eq_some h
  split at hf
  · rename_i hc
    simp only [Bool.and_eq_true] at hc
    have h1 := Option.some.inj hf
    exact ⟨t, ht, (congrArg Prod.fst h1).symm, (congrArg Prod.snd h1).symm, hc.1.1⟩
  · exact absurd hf (by simp)

/-- countP over a mapped list. -/
theorem countP_map_eq {α β : Type} (p : β → Bool) (f : α → β) (l : List α) :
    (l.map f).countP p = l.countP fun a => p (f a) := by
  induction l with
  | nil => simp
  | cons a l ih => simp [List.countP_cons, ih]

/-- Head split of a countP over an initial segment of positions. -/
theorem countP_range_succ (n : Nat) (f : Nat → Bool) :
    (List.range (n + 1)).countP f =
      (if f 0 then 1 else 0) + (List.range n).countP fun i => f (i + 1) := by
  rw [List.range_succ_eq_map, List.countP_cons, countP_map_eq, Nat.add_comm]

/-- One-position unfolding of countTokensAux on a failed match. -/
theorem countTokensAux_cons_none (pw : Bool) (c : Char) (rest : Str)
    (h : tokenMatchAt pw (c :: rest) = none) :
    countTokensAux pw (c :: rest) = countTokensAux (isWordChar c) rest := by
  rw [countTokensAux]
  split
  · rename_i len lastW hsome
    rw [h] at hsome
    cases hsome
  · rfl

/-- One-position unfolding of countTokensAux on a successful match. -/
theorem countTokensAux_cons_some (pw : Bool) (c : Char) (rest : Str)
    (len : Nat) (lastW : Bool) (h : tokenMatchAt pw (c :: rest) = some (len, lastW)) :
    countTokensAux pw (c :: rest) = 1 + countTokensAux lastW ((c :: rest).drop len) := by
  rw [countTokensAux]
  split
  · rename_i len2 lastW2 hsome
    rw [h] at hsome
    obtain ⟨h1, h2⟩ := Prod.mk.inj (Option.some.inj hsome)
    rw [h1, h2]
  · rename_i hnone
    rw [h] at hnone
    cases hnone

/-- Jumping a forbidden window: if no position in 1..m-1 matches, the count
over the whole string is the position-0 match plus the count over the
suffix from m, with the previous-character wordness taken at m-1. -/
theorem countP_shift : ∀ (m : Nat) (s : Str) (pw pw3 : Bool), 1 ≤ m → m ≤ s.length →
    (∀ i, 1 ≤ i → i < m → tokenAtPosRel pw s i = false) →
    pw3 = optWord s[m - 1]? →
    (List.range s.length).countP (tokenAtPosRel pw s) =
      (if tokenAtPosRel pw s 0 then 1 else 0) +
        (List.range (s.length - m)).countP (tokenAtPosRel pw3 (s.drop m)) := by
  intro m
  induction m with
  | zero => intro s pw pw3 hm; omega
  | succ m1 ih =>
    intro s pw pw3 _ hmlen hfalse hpw3
    obtain ⟨c, rest, rfl⟩ : ∃ c rest, s = c :: rest := by
      cases s with
      | nil => simp at hmlen
      | cons c rest => exact ⟨c, rest, rfl⟩
    have hlen : (c :: rest).length = rest.length + 1 := rfl
    rw [hlen, countP_range_succ]
    have hsh : ∀ j, tokenAtPosRel (isWordChar c) rest j =
        tokenAtPosRel pw (c :: rest) (1 + j) := by
      intro j
      have := tokenAtPosRel_drop pw (isWordChar c) (c :: rest) 1 (by omega)
        (by simp [optWord]) j
      simpa using this
    have hfun : (fun i => tokenAtPosRel pw (c :: rest) (i + 1)) =
        fun i => tokenAtPosRel (isWordChar c) rest i := by
      funext i
      rw [hsh i, Nat.add_comm]
    rw [hfun]
    cases m1 with
    | zero =>
      have hpw3c : pw3 = isWordChar c := by simpa [optWord] using hpw3
      subst hpw3c
      simp
    | succ m2 =>
      have hres := ih rest (isWordChar c) pw3 (by omega)
        (by simp only [List.length_cons] at hmlen; omega)
        (fun i h1 h2 => by
          rw [hsh i]
          exact hfalse (1 + i) (by omega) (by omega))
        (by
          rw [hpw3]
          norm_num)
      rw [hres]
      have h0 : tokenAtPosRel (isWordChar c) rest 0 = false := by
        rw [hsh 0]
        exact hfalse 1 (by omega) (by omega)
      rw [h0]
      have hdrop : rest.drop (m2 + 1) = (c :: rest).drop (m2 + 1 + 1) := rfl
      have hsub : rest.length - (m2 + 1) = rest.length + 1 - (m2 + 1 + 1) := by omega
      rw [hdrop, hsub]
      simp

/-- Main equivalence: the leftmost-jump scanner counts exactly the
boundary-satisfying token positions. -/
theorem countTokensAux_eq_spec : ∀ (n : Nat) (s : Str), s.length ≤ n → ∀ pw : Bool,
    countTokensAux pw s = (List.range s.length).countP (tokenAtPosRel pw s) := by
  intro n
  induction n with
  | zero =>
    intro s hs pw
    obtain rfl : s = [] := List.eq_nil_of_length_eq_zero (by omega)
    simp [countTokensAux]
  | succ n ih =>
    intro s hs pw
    cases s with
    | nil => simp [countTokensAux]
    | cons c rest =>
      cases h : tokenMatchAt pw (c :: rest) with
      | none =>
        rw [countTokensAux_cons_none pw c rest h]
        rw [ih rest (by simp only [List.length_cons] at hs; omega) (isWordChar c)]
        rw [show (c :: rest).length = rest.length + 1 from rfl, countP_range_succ]
        have h0 : tokenAtPosRel pw (c :: rest) 0 = false := by
          rw [← tokenMatchAt_isSome, h]
          rfl
        rw [h0]
        have hfun : (fun i => tokenAtPosRel pw (c :: rest) (i + 1)) =
            fun i => tokenAtPosRel (isWordChar c) rest i := by
          funext i
          have := tokenAtPosRel_drop pw (isWordChar c) (c :: rest) 1 (by omega)
            (by simp [optWord]) i
          rw [Nat.add_comm 1 i] at this
          simpa using this.symm
        rw [hfun]
        simp
      | some p =>
        obtain ⟨len, lastW⟩ := p
        obtain ⟨t, ht, hlen, hb, hpre⟩ := tokenMatchAt_spec _ _ _ _ h
        have hbounds := tokenMatchAt_length _ _ _ _ h
        obtain ⟨hne, hflags, huni⟩ := decisionTokens_uniform t ht
        have hfalse : ∀ i, 1 ≤ i → i < len → tokenAtPosRel pw (c :: rest) i = false := by
          intro i h1 h2
          apply tokenAtPosRel_false_of_eq _ _ _ h1
          have e1 : (c :: rest)[i - 1]? = t.1[i - 1]? :=
            prefixOf_getElem t.1 (c :: rest) hpre (i - 1) (by omega)
          have e2 : (c :: rest)[i]? = t.1[i]? :=
            prefixOf_getElem t.1 (c :: rest) hpre i (by omega)
          have hi1 : i - 1 < t.1.length := by omega
          have hi2 : i < t.1.length := by omega
          rw [e1, e2, List.getElem?_eq_getElem hi1, List.getElem?_eq_getElem hi2]
          simp only [optWord]
          rw [huni _ (List.getElem_mem hi1), huni _ (List.getElem_mem hi2)]
        have hlast : lastW = optWord (c :: rest)[len - 1]? := by
          have e : (c :: rest)[len - 1]? = t.1[len - 1]? :=
            prefixOf_getElem t.1 (c :: rest) hpre (len - 1) (by omega)
          have hi : len - 1 < t.1.length := by omega
          rw [e, List.getElem?_eq_getElem hi]
          simp only [optWord]
          rw [huni _ (List.getElem_mem hi), hflags, hb]
        rw [countTokensAux_cons_some pw c rest len lastW h]
        rw [ih ((c :: rest).drop len)
          (by simp only [List.length_drop, List.length_cons] at *; omega) lastW]
        rw [countP_shift len (c :: rest) pw lastW hbounds.1 hbounds.2 hfalse hlast]
        have h0 : tokenAtPosRel pw (c :: rest) 0 = true := by
          rw [← tokenMatchAt_isSome, h]
          rfl
        rw [h0]
        simp [List.length_drop]

/-- A function body with two ifs, one else-if and one for (the spec's own
complexity example). -/
def exC7 : Str :=
  strOf "void check(int a, int b, int c) \x7b\n  if (a > 0) \x7b\n  \x7d else if (b > 0) \x7b\n  \x7d\n  if (c > 0) \x7b\n  \x7d\n  for (var i = 0; i < 10; i++) \x7b\n  \x7d\n\x7d"

set_option maxRecDepth 20000 in
/-- C7 (amended): cyclomatic complexity is 1 plus the number of positions
at which a decision token occurs with `\b` word boundaries on both sides -
so `&&`, `||` and `?` are counted only when directly flanked by word
characters; and the spec's two-if/else-if/for example still scores at
least 5. -/
theorem cyclomaticComplexity_eq_boundary_token_count :
    (∀ code : Str,
      (analyzeComplexity code).cyclomaticComplexity = specCountDecision code + 1) ∧
    5 ≤ (analyzeComplexity exC7).cyclomaticComplexity := by
  have hmain : ∀ code : Str,
      (analyzeComplexity code).cyclomaticComplexity = specCountDecision code + 1 := by
    intro code
    show countTokensAux false code + 1 = _
    rw [countTokensAux_eq_spec code.length code le_rfl false]
    rfl
  refine ⟨hmain, ?_⟩
  rw [hmain exC7]
  decide

set_option maxRecDepth 20000 in
/-- C7 (counterexample to the claim as stated): `a && b` contains one
occurrence of the token `&&`, so the claimed count gives complexity 2, but
the code\'s regex wraps `&&` in `\b` and does not count it when surrounded
by spaces - the code reports 1. -/
theorem cyclomaticComplexity_substring_claim_false :
    claimTokenOccurrences (strOf "a && b") + 1 = 2 ∧
    (analyzeComplexity (strOf "a && b")).cyclomaticComplexity = 1 ∧
    claimTokenOccurrences (strOf "a && b") + 1 ≠
      (analyzeComplexity (strOf "a && b")).cyclomaticComplexity := by
  have hval : (analyzeComplexity (strOf "a && b")).cyclomaticComplexity =
      (List.range (strOf "a && b").length).countP (tokenAtPosRel false (strOf "a && b")) + 1 := by
    show countTokensAux false (strOf "a && b") + 1 = _
    rw [countTokensAux_eq_spec (strOf "a && b").length (strOf "a && b") le_rfl false]
  refine ⟨by decide, ?_, ?_⟩
  · rw [hval]
    decide
  · rw [hval]
    decide

/-! ## src/lib/flutter-code-generator.ts - template renderer

replaceTemplateVariables applies three global regex passes in order:
 1. `/\x7b\x7b([^}]+)\x7d\x7d/g`            - simple variables,
 2. `/\x7b\x7b#([^}]+)\x7d\x7d([\s\S]*?)\x7b\x7b\/\1\x7d\x7d/g` - conditional blocks,
 3. the same pattern again                  - loops over array values.
Each pass is a leftmost scan; replacement text is not rescanned, scanning
resumes right after the matched text; on a failed position the scan
advances one character.  The scanners below take a fuel argument so that
they are structurally recursive (kernel-reducible); every step consumes at
least one character of the remainder, so the initial fuel `length + 1`
never runs out, which the fuel-irrelevance lemmas below make precise. -/

/-- Dynamic configuration values (the `any` config objects of the source).
JS `null` is not modelled - the generator never places null in a config. -/
inductive JsValue where
  | str (s : Str)
  | num (n : Int)
  | boolean (b : Bool)
  | arr (items : List JsValue)
  | obj (fields : List (Str × JsValue))
  | undef

/-- Configuration object: key/value pairs in property order. -/
abbrev Config := List (Str × JsValue)

/-- Decimal digits of a natural number (fuelled, fuel = n suffices). -/
def natDigits : Nat → Nat → Str
  | 0, _ => []
  | _ + 1, n =>
    if n = 0 then []
    else natDigits n (n / 10) ++ [Char.ofNat (48 + n % 10)]

/-- Decimal rendering of Nat. -/
def natToStr (n : Nat) : Str :=
  if n = 0 then strOf "0" else natDigits (n + 1) n

/-- Decimal rendering of Int (String(n) for integral JS numbers). -/
def intToStr (i : Int) : Str :=
  if i < 0 then '-' :: natToStr i.natAbs else natToStr i.natAbs

mutual
/-- `String(value)`.  Arrays stringify as comma-joined elements (with
undefined elements as empty), objects as "[object Object]". -/
def jsString : JsValue → Str
  | .str s => s
  | .num n => intToStr n
  | .boolean b => if b then strOf "true" else strOf "false"
  | .undef => strOf "undefined"
  | .obj _ => strOf "[object Object]"
  | .arr items => jsStringList items

/-- Array.prototype.join(',') with String() on each element. -/
def jsStringList : List JsValue → Str
  | [] => []
  | [JsValue.undef] => []
  | [v] => jsString v
  | JsValue.undef :: rest => ',' :: jsStringList rest
  | v :: rest => jsString v ++ ',' :: jsStringList rest
end

/-- JS truthiness of a property read (`undefined`, empty string, 0 and
false are falsy; arrays and objects are always truthy). -/
def jsTruthy : Option JsValue → Bool
  | none => false
  | some (.str s) => !s.isEmpty
  | some (.num n) => !(n == 0)
  | some (.boolean b) => b
  | some (.arr _) => true
  | some (.obj _) => true
  | some .undef => false

/-- Not-a-right-brace class `[^}]`. -/
def notRb (c : Char) : Bool := !(c = rb)

/-- The simple-variable match attempt at one position:
`\x7b\x7b([^}]+)\x7d\x7d` - two braces, a non-empty maximal run of
non-`}` characters (maximal munch is exact for `[^}]+` before `\x7d`),
two closing braces.  Returns (captured key, rest after the match). -/
def tryVar : Str → Option (Str × Str)
  | b1 :: b2 :: rest =>
    if b1 = lb && b2 = lb then
      match rest.dropWhile notRb with
      | r1 :: r2 :: rest2 =>
        if !(rest.takeWhile notRb).isEmpty && r1 = rb && r2 = rb then
          some (rest.takeWhile notRb, rest2)
        else none
      | _ => none
    else none
  | _ => none

/-- The replacement of pass 1: `String(config[key.trim()])`, or the
original matched text when the key is absent (or explicitly undefined -
the source tests `value !== undefined`). -/
def varRepl (cfg : Config) (key : Str) : Str :=
  match lookupA (jsTrim key) cfg with
  | some JsValue.undef => [lb, lb] ++ key ++ [rb, rb]
  | some v => jsString v
  | none => [lb, lb] ++ key ++ [rb, rb]

/-- Pass 1 scanner (fuelled). -/
def sub1Go (cfg : Config) : Nat → Str → Str
  | 0, s => s
  | _ + 1, [] => []
  | fuel + 1, c :: rest =>
    match tryVar (c :: rest) with
    | some (key, rest2) => varRepl cfg key ++ sub1Go cfg fuel rest2
    | none => c :: sub1Go cfg fuel rest

/-- Pass 1: simple-variable substitution. -/
def sub1 (cfg : Config) (s : Str) : Str := sub1Go cfg (s.length + 1) s

/-- First occurrence of a literal pattern: returns (text before, text
after) - the lazy `[\s\S]*?` up to the back-referenced close marker. -/
def findSplit (pat : Str) : Str → Option (Str × Str)
  | [] => if pat.isEmpty then some ([], []) else none
  | c :: rest =>
    if prefixOf pat (c :: rest) then some ([], (c :: rest).drop pat.length)
    else
      match findSplit pat rest with
      | some (b, a) => some (c :: b, a)
      | none => none

/-- The block match attempt at one position:
`\x7b\x7b#([^}]+)\x7d\x7d([\s\S]*?)\x7b\x7b\/\1\x7d\x7d` - the key run is
maximal as in tryVar, the content is the shortest text followed by the
literal close marker of the captured key.  Returns (key, content, rest
after the close marker). -/
def tryBlock : Str → Option (Str × Str × Str)
  | b1 :: b2 :: b3 :: rest =>
    if b1 = lb && b2 = lb && b3 = '#' then
      match rest.dropWhile notRb with
      | r1 :: r2 :: rest2 =>
        if !(rest.takeWhile notRb).isEmpty && r1 = rb && r2 = rb then
          match findSplit ([lb, lb, '/'] ++ rest.takeWhile notRb ++ [rb, rb]) rest2 with
          | some (content, after) => some (rest.takeWhile notRb, content, after)
          | none => none
        else none
      | _ => none
    else none
  | _ => none

/-- Pass 2 scanner (fuelled): conditional blocks - any truthy value,
arrays included, keeps the content once; falsy/absent erases it. -/
def sub2Go (cfg : Config) : Nat → Str → Str
  | 0, s => s
  | _ + 1, [] => []
  | fuel + 1, c :: rest =>
    match tryBlock (c :: rest) with
    | some (key, content, after) =>
      (if jsTruthy (lookupA (jsTrim key) cfg) then content else []) ++
        sub2Go cfg fuel after
    | none => c :: sub2Go cfg fuel rest

/-- Pass 2: conditional blocks. -/
def sub2 (cfg : Config) (s : Str) : Str := sub2Go cfg (s.length + 1) s

/-- Global literal replacement (fuelled) -
`itemContent.replace(new RegExp("\\x7b\\x7b" + key + "\\x7d\\x7d", "g"), v)`.
`$`-escape sequences of JS replacement strings are not modelled; no value
used by the repository contains them. -/
def replaceAllGo (pat repl : Str) : Nat → Str → Str
  | 0, s => s
  | _ + 1, [] => []
  | fuel + 1, c :: rest =>
    if !pat.isEmpty && prefixOf pat (c :: rest) then
      repl ++ replaceAllGo pat repl fuel ((c :: rest).drop pat.length)
    else c :: replaceAllGo pat repl fuel rest

/-- Global literal replacement. -/
def replaceAll (s pat repl : Str) : Str := replaceAllGo pat repl (s.length + 1) s

/-- One loop iteration of pass 3: `typeof item === 'object'` holds for
objects and arrays (array keys are the decimal indices); other items leave
the content unchanged.  Keys are substituted sequentially in property
order. -/
def renderItem (content : Str) : JsValue → Str
  | .obj fields =>
    fields.foldl
      (fun acc kv => replaceAll acc ([lb, lb] ++ kv.1 ++ [rb, rb]) (jsString kv.2))
      content
  | .arr xs =>
    xs.enum.foldl
      (fun acc kv =>
        replaceAll acc ([lb, lb] ++ natToStr kv.1 ++ [rb, rb]) (jsString kv.2))
      content
  | _ => content

/-- Pass 3 scanner (fuelled): loops - array values repeat the content per
item, every non-array value (truthy or not) erases the block.  Top-level
blocks never reach this pass: pass 2 already consumed them (arrays are
truthy), so this pass only sees blocks nested inside a truthy outer
block. -/
def sub3Go (cfg : Config) : Nat → Str → Str
  | 0, s => s
  | _ + 1, [] => []
  | fuel + 1, c :: rest =>
    match tryBlock (c :: rest) with
    | some (key, content, after) =>
      (match lookupA (jsTrim key) cfg with
       | some (JsValue.arr items) => (items.map (renderItem content)).flatten
       | _ => []) ++ sub3Go cfg fuel after
    | none => c :: sub3Go cfg fuel rest

/-- Pass 3: loops. -/
def sub3 (cfg : Config) (s : Str) : Str := sub3Go cfg (s.length + 1) s

/-- FlutterCodeGenerator.replaceTemplateVariables: the three passes in
source order (simple variables first, then conditionals, then loops). -/
def replaceTemplateVariables (template : Str) (cfg : Config) : Str :=
  sub3 cfg (sub2 cfg (sub1 cfg template))

/-- A residual simple-variable marker `\x7b\x7b...\x7d\x7d` occurs
somewhere in the string. -/
def hasMarker : Str → Bool
  | [] => false
  | c :: rest => (tryVar (c :: rest)).isSome || hasMarker rest

/-- C1 (counterexample to the claim as stated): a top-level block bound to
a list renders its content once, unchanged - the conditional pass consumes
it first (arrays are truthy) and the loop pass never sees it, so the
per-item expansion the claim describes does not happen. -/
theorem blockRender_list_claim_false :
    replaceTemplateVariables
        (strOf "\x7b\x7b#deps\x7d\x7d- \x7b\x7bname\x7d\x7d \x7b\x7b/deps\x7d\x7d")
        [(strOf "deps", JsValue.arr
          [JsValue.obj [(strOf "name", JsValue.str (strOf "a"))],
           JsValue.obj [(strOf "name", JsValue.str (strOf "b"))]])] =
      strOf "- \x7b\x7bname\x7d\x7d " ∧
    ([JsValue.obj [(strOf "name", JsValue.str (strOf "a"))],
      JsValue.obj [(strOf "name", JsValue.str (strOf "b"))]].map
        (renderItem (strOf "- \x7b\x7bname\x7d\x7d "))).flatten = strOf "- a - b " ∧
    ¬(strOf "- \x7b\x7bname\x7d\x7d " : Str) = strOf "- a - b " := by
  refine ⟨by decide, by decide, by decide⟩

/-- C2 (counterexample to the claim as stated): a template whose every
placeholder is supplied - `who` and `deps` at the top level and the field
`name` in every list item - still renders with a residual marker, because
the in-block `\x7b\x7bname\x7d\x7d` is only substitutable by the dead loop
pass. -/
theorem residualMarker_fullconfig_claim_false :
    (lookupA (strOf "who")
      [(strOf "who", JsValue.str (strOf "x")),
       (strOf "deps", JsValue.arr
         [JsValue.obj [(strOf "name", JsValue.str (strOf "a"))],
          JsValue.obj [(strOf "name", JsValue.str (strOf "b"))]])]).isSome = true ∧
    (lookupA (strOf "deps")
      [(strOf "who", JsValue.str (strOf "x")),
       (strOf "deps", JsValue.arr
         [JsValue.obj [(strOf "name", JsValue.str (strOf "a"))],
          JsValue.obj [(strOf "name", JsValue.str (strOf "b"))]])]).isSome = true ∧
    replaceTemplateVariables
        (strOf "Hello \x7b\x7bwho\x7d\x7d! \x7b\x7b#deps\x7d\x7d- \x7b\x7bname\x7d\x7d \x7b\x7b/deps\x7d\x7d")
        [(strOf "who", JsValue.str (strOf "x")),
         (strOf "deps", JsValue.arr
           [JsValue.obj [(strOf "name", JsValue.str (strOf "a"))],
            JsValue.obj [(strOf "name", JsValue.str (strOf "b"))]])] =
      strOf "Hello x! - \x7b\x7bname\x7d\x7d " ∧
    hasMarker
      (replaceTemplateVariables
        (strOf "Hello \x7b\x7bwho\x7d\x7d! \x7b\x7b#deps\x7d\x7d- \x7b\x7bname\x7d\x7d \x7b\x7b/deps\x7d\x7d")
        [(strOf "who", JsValue.str (strOf "x")),
         (strOf "deps", JsValue.arr
           [JsValue.obj [(strOf "name", JsValue.str (strOf "a"))],
            JsValue.obj [(strOf "name", JsValue.str (strOf "b"))]])]) = true := by
  refine ⟨by decide, by decide, by decide, by decide⟩

/-! ### Scanner lemmas for the template passes -/

/-- Constructor-level unfolding of sub1Go (the scanner is structurally
recursive, so these are definitional). -/
theorem sub1Go_cons_some (cfg : Config) (f : Nat) (c : Char) (rest k r2 : Str)
    (h : tryVar (c :: rest) = some (k, r2)) :
    sub1Go cfg (f + 1) (c :: rest) = varRepl cfg k ++ sub1Go cfg f r2 := by
  have h0 : sub1Go cfg (f + 1) (c :: rest) =
      match tryVar (c :: rest) with
      | some (key, rest2) => varRepl cfg key ++ sub1Go cfg f rest2
      | none => c :: sub1Go cfg f rest := rfl
  rw [h0, h]

/-- Constructor-level unfolding of sub1Go, no-match case. -/
theorem sub1Go_cons_none (cfg : Config) (f : Nat) (c : Char) (rest : Str)
    (h : tryVar (c :: rest) = none) :
    sub1Go cfg (f + 1) (c :: rest) = c :: sub1Go cfg f rest := by
  have h0 : sub1Go cfg (f + 1) (c :: rest) =
      match tryVar (c :: rest) with
      | some (key, rest2) => varRepl cfg key ++ sub1Go cfg f rest2
      | none => c :: sub1Go cfg f rest := rfl
  rw [h0, h]

/-- Constructor-level unfolding of sub2Go, match case. -/
theorem sub2Go_cons_some (cfg : Config) (f : Nat) (c : Char)
    (rest k content after : Str)
    (h : tryBlock (c :: rest) = some (k, content, after)) :
    sub2Go cfg (f + 1) (c :: rest) =
      (if jsTruthy (lookupA (jsTrim k) cfg) then content else []) ++
        sub2Go cfg f after := by
  have h0 : sub2Go cfg (f + 1) (c :: rest) =
      match tryBlock (c :: rest) with
      | some (key, content, after) =>
        (if jsTruthy (lookupA (jsTrim key) cfg) then content else []) ++
          sub2Go cfg f after
      | none => c :: sub2Go cfg f rest := rfl
  rw [h0, h]

/-- Constructor-level unfolding of sub2Go, no-match case. -/
theorem sub2Go_cons_none (cfg : Config) (f : Nat) (c : Char) (rest : Str)
    (h : tryBlock (c :: rest) = none) :
    sub2Go cfg (f + 1) (c :: rest) = c :: sub2Go cfg f rest := by
  have h0 : sub2Go cfg (f + 1) (c :: rest) =
      match tryBlock (c :: rest) with
      | some (key, content, after) =>
        (if jsTruthy (lookupA (jsTrim key) cfg) then content else []) ++
          sub2Go cfg f after
      | none => c :: sub2Go cfg f rest := rfl
  rw [h0, h]

/-- Constructor-level unfolding of sub3Go, match case. -/
theorem sub3Go_cons_some (cfg : Config) (f : Nat) (c : Char)
    (rest k content after : Str)
    (h : tryBlock (c :: rest) = some (k, content, after)) :
    sub3Go cfg (f + 1) (c :: rest) =
      (match lookupA (jsTrim k) cfg with
       | some (JsValue.arr items) => (items.map (renderItem content)).flatten
       | _ => []) ++ sub3Go cfg f after := by
  have h0 : sub3Go cfg (f + 1) (c :: rest) =
      match tryBlock (c :: rest) with
      | some (key, content, after) =>
        (match lookupA (jsTrim key) cfg with
         | some (JsValue.arr items) => (items.map (renderItem content)).flatten
         | _ => []) ++ sub3Go cfg f after
      | none => c :: sub3Go cfg f rest := rfl
  rw [h0, h]

/-- Constructor-level unfolding of sub3Go, no-match case. -/
theorem sub3Go_cons_none (cfg : Config) (f : Nat) (c : Char) (rest : Str)
    (h : tryBlock (c :: rest) = none) :
    sub3Go cfg (f + 1) (c :: rest) = c :: sub3Go cfg f rest := by
  have h0 : sub3Go cfg (f + 1) (c :: rest) =
      match tryBlock (c :: rest) with
      | some (key, content, after) =>
        (match lookupA (jsTrim key) cfg with
         | some (JsValue.arr items) => (items.map (renderItem content)).flatten
         | _ => []) ++ sub3Go cfg f after
      | none => c :: sub3Go cfg f rest := rfl
  rw [h0, h]

/-- takeWhile over an all-satisfying prefix. -/
theorem takeWhile_app_all {α : Type} (p : α → Bool) (a b : List α)
    (h : ∀ c ∈ a, p c = true) : (a ++ b).takeWhile p = a ++ b.takeWhile p := by
  induction a with
  | nil => simp
  | cons c a2 ih =>
    simp only [List.cons_append, List.takeWhile_cons, h c (by simp)]
    rw [ih (fun d hd => h d (by simp [hd]))]
    simp

/-- dropWhile over an all-satisfying prefix. -/
theorem dropWhile_app_all {α : Type} (p : α → Bool) (a b : List α)
    (h : ∀ c ∈ a, p c = true) : (a ++ b).dropWhile p = b.dropWhile p := by
  induction a with
  | nil => simp
  | cons c a2 ih =>
    simp only [List.cons_append, List.dropWhile_cons, h c (by simp)]
    simp only [if_true]
    exact ih (fun d hd => h d (by simp [hd]))

/-- dropWhile is the identity when every element fails the predicate. -/
theorem dropWhile_eq_self {α : Type} (p : α → Bool) (l : List α)
    (h : ∀ c ∈ l, p c = false) : l.dropWhile p = l := by
  cases l with
  | nil => rfl
  | cons c rest => simp [List.dropWhile_cons, h c (by simp)]

/-- trim is the identity on whitespace-free strings. -/
theorem jsTrim_noSpace (s : Str) (h : ∀ c ∈ s, jsSpace c = false) :
    jsTrim s = s := by
  unfold jsTrim
  rw [dropWhile_eq_self jsSpace s h,
    dropWhile_eq_self jsSpace s.reverse (fun c hc => h c (List.mem_reverse.mp hc)),
    List.reverse_reverse]

/-- A match of tryVar leaves a remainder at least two characters shorter
than the input. -/
theorem tryVar_shrink (s k r2 : Str) (h : tryVar s = some (k, r2)) :
    r2.length + 2 ≤ s.length := by
  cases s with
  | nil => simp [tryVar] at h
  | cons b1 s1 =>
    cases s1 with
    | nil => simp [tryVar] at h
    | cons b2 rest =>
      simp only [tryVar] at h
      split at h
      · split at h
        · rename_i r1 r2c rest2 hdrop
          split at h
          · obtain ⟨_, hr2⟩ := Prod.mk.inj (Option.some.inj h)
            subst hr2
            have hb := length_dropWhile_le notRb rest
            rw [hdrop] at hb
            simp only [List.length_cons] at hb ⊢
            omega
          · simp at h
        · simp at h
      · simp at h

/-- findSplit only shrinks. -/
theorem findSplit_le : ∀ (pat s b a : Str), findSplit pat s = some (b, a) →
    a.length ≤ s.length := by
  intro pat s
  induction s with
  | nil =>
    intro b a h
    simp only [findSplit] at h
    split at h
    · obtain ⟨_, ha⟩ := Prod.mk.inj (Option.some.inj h)
      subst ha
      simp
    · simp at h
  | cons c rest ih =>
    intro b a h
    simp only [findSplit] at h
    split at h
    · obtain ⟨_, ha⟩ := Prod.mk.inj (Option.some.inj h)
      subst ha
      simp only [List.length_drop, List.length_cons]
      omega
    · split at h
      · rename_i b2 a2 hfs
        obtain ⟨_, ha⟩ := Prod.mk.inj (Option.some.inj h)
        subst ha
        have := ih b2 a2 hfs
        simp only [List.length_cons]
        omega
      · simp at h

/-- A match of tryBlock leaves a strictly shorter remainder. -/
theorem tryBlock_shrink (s k content after : Str)
    (h : tryBlock s = some (k, content, after)) : after.length < s.length := by
  cases s with
  | nil => simp [tryBlock] at h
  | cons b1 s1 =>
    cases s1 with
    | nil => simp [tryBlock] at h
    | cons b2 s2 =>
      cases s2 with
      | nil => simp [tryBlock] at h
      | cons b3 rest =>
        simp only [tryBlock] at h
        split at h
        · split at h
          · rename_i r1 r2c rest2 hdrop
            split at h
            · split at h
              · rename_i content2 after2 hfs
                obtain ⟨_, h2⟩ := Prod.mk.inj (Option.some.inj h)
                obtain ⟨_, ha⟩ := Prod.mk.inj h2
                subst ha
                have hb := length_dropWhile_le notRb rest
                rw [hdrop] at hb
                have hc := findSplit_le _ _ _ _ hfs
                simp only [List.length_cons] at hb ⊢
                omega
              · simp at h
            · simp at h
          · simp at h
        · simp at h

/-- sub1Go does not depend on the fuel once it exceeds the length. -/
theorem sub1Go_fuel (cfg : Config) : ∀ (f1 : Nat) (f2 : Nat) (s : Str),
    s.length < f1 → s.length < f2 → sub1Go cfg f1 s = sub1Go cfg f2 s := by
  intro f1
  induction f1 with
  | zero => intro f2 s h1; omega
  | succ f ih =>
    intro f2 s h1 h2
    cases s with
    | nil =>
      cases f2 with
      | zero => rfl
      | succ g => rfl
    | cons c rest =>
      cases f2 with
      | zero => simp at h2
      | succ g =>
        simp only [List.length_cons] at h1 h2
        cases h : tryVar (c :: rest) with
        | some p =>
          obtain ⟨k, r2⟩ := p
          have hs := tryVar_shrink _ _ _ h
          simp only [List.length_cons] at hs
          rw [sub1Go_cons_some cfg f c rest k r2 h,
            sub1Go_cons_some cfg g c rest k r2 h,
            ih g r2 (by omega) (by omega)]
        | none =>
          rw [sub1Go_cons_none cfg f c rest h, sub1Go_cons_none cfg g c rest h,
            ih g rest (by omega) (by omega)]

/-- sub2Go does not depend on the fuel once it exceeds the length. -/
theorem sub2Go_fuel (cfg : Config) : ∀ (f1 : Nat) (f2 : Nat) (s : Str),
    s.length < f1 → s.length < f2 → sub2Go cfg f1 s = sub2Go cfg f2 s := by
  intro f1
  induction f1 with
  | zero => intro f2 s h1; omega
  | succ f ih =>
    intro f2 s h1 h2
    cases s with
    | nil =>
      cases f2 with
      | zero => rfl
      | succ g => rfl
    | cons c rest =>
      cases f2 with
      | zero => simp at h2
      | succ g =>
        simp only [List.length_cons] at h1 h2
        cases h : tryBlock (c :: rest) with
        | some p =>
          obtain ⟨k, content, after⟩ := p
          have hs := tryBlock_shrink _ _ _ _ h
          simp only [List.length_cons] at hs
          rw [sub2Go_cons_some cfg f c rest k content after h,
            sub2Go_cons_some cfg g c rest k content after h,
            ih g after (by omega) (by omega)]
        | none =>
          rw [sub2Go_cons_none cfg f c rest h, sub2Go_cons_none cfg g c rest h,
            ih g rest (by omega) (by omega)]

/-- sub3Go does not depend on the fuel once it exceeds the length. -/
theorem sub3Go_fuel (cfg : Config) : ∀ (f1 : Nat) (f2 : Nat) (s : Str),
    s.length < f1 → s.length < f2 → sub3Go cfg f1 s = sub3Go cfg f2 s := by
  intro f1
  induction f1 with
  | zero => intro f2 s h1; omega
  | succ f ih =>
    intro f2 s h1 h2
    cases s with
    | nil =>
      cases f2 with
      | zero => rfl
      | succ g => rfl
    | cons c rest =>
      cases f2 with
      | zero => simp at h2
      | succ g =>
        simp only [List.length_cons] at h1 h2
        cases h : tryBlock (c :: rest) with
        | some p =>
          obtain ⟨k, content, after⟩ := p
          have hs := tryBlock_shrink _ _ _ _ h
          simp only [List.length_cons] at hs
          rw [sub3Go_cons_some cfg f c rest k content after h,
            sub3Go_cons_some cfg g c rest k content after h,
            ih g after (by omega) (by omega)]
        | none =>
          rw [sub3Go_cons_none cfg f c rest h, sub3Go_cons_none cfg g c rest h,
            ih g rest (by omega) (by omega)]

/-- tryVar never fires off a non-brace head. -/
theorem tryVar_none_head (c : Char) (rest : Str) (hc : ¬c = lb) :
    tryVar (c :: rest) = none := by
  cases rest with
  | nil => rfl
  | cons b2 rest2 => simp [tryVar, hc]

/-- tryBlock never fires off a non-brace head. -/
theorem tryBlock_none_head (c : Char) (rest : Str) (hc : ¬c = lb) :
    tryBlock (c :: rest) = none := by
  cases rest with
  | nil => rfl
  | cons b2 rest2 =>
    cases rest2 with
    | nil => rfl
    | cons b3 rest3 => simp [tryBlock, hc]

/-- Pass 1 passes a brace-free prefix through unchanged. -/
theorem sub1_nolb_append (cfg : Config) : ∀ (s t : Str) (fuel : Nat),
    (s ++ t).length < fuel → (∀ c ∈ s, ¬c = lb) →
    sub1Go cfg fuel (s ++ t) = s ++ sub1 cfg t := by
  intro s
  induction s with
  | nil =>
    intro t fuel h1 _
    simp only [List.nil_append]
    exact sub1Go_fuel cfg fuel (t.length + 1) t (by simpa using h1) (by omega)
  | cons c s2 ih =>
    intro t fuel h1 h2
    cases fuel with
    | zero => simp at h1
    | succ f =>
      rw [List.cons_append,
        sub1Go_cons_none cfg f c (s2 ++ t) (tryVar_none_head c (s2 ++ t) (h2 c (by simp))),
        ih t f (by simp only [List.length_append, List.length_cons] at h1 ⊢; omega)
          (fun d hd => h2 d (by simp [hd]))]
      rfl

/-- Pass 2 passes a brace-free prefix through unchanged. -/
theorem sub2_nolb_append (cfg : Config) : ∀ (s t : Str) (fuel : Nat),
    (s ++ t).length < fuel → (∀ c ∈ s, ¬c = lb) →
    sub2Go cfg fuel (s ++ t) = s ++ sub2 cfg t := by
  intro s
  induction s with
  | nil =>
    intro t fuel h1 _
    simp only [List.nil_append]
    exact sub2Go_fuel cfg fuel (t.length + 1) t (by simpa using h1) (by omega)
  | cons c s2 ih =>
    intro t fuel h1 h2
    cases fuel with
    | zero => simp at h1
    | succ f =>
      rw [List.cons_append,
        sub2Go_cons_none cfg f c (s2 ++ t) (tryBlock_none_head c (s2 ++ t) (h2 c (by simp))),
        ih t f (by simp only [List.length_append, List.length_cons] at h1 ⊢; omega)
          (fun d hd => h2 d (by simp [hd]))]
      rfl

/-- Pass 3 passes a brace-free prefix through unchanged. -/
theorem sub3_nolb_append (cfg : Config) : ∀ (s t : Str) (fuel : Nat),
    (s ++ t).length < fuel → (∀ c ∈ s, ¬c = lb) →
    sub3Go cfg fuel (s ++ t) = s ++ sub3 cfg t := by
  intro s
  induction s with
  | nil =>
    intro t fuel h1 _
    simp only [List.nil_append]
    exact sub3Go_fuel cfg fuel (t.length + 1) t (by simpa using h1) (by omega)
  | cons c s2 ih =>
    intro t fuel h1 h2
    cases fuel with
    | zero => simp at h1
    | succ f =>
      rw [List.cons_append,
        sub3Go_cons_none cfg f c (s2 ++ t) (tryBlock_none_head c (s2 ++ t) (h2 c (by simp))),
        ih t f (by simp only [List.length_append, List.length_cons] at h1 ⊢; omega)
          (fun d hd => h2 d (by simp [hd]))]
      rfl

/-- Pass 2 is the identity on brace-free strings. -/
theorem sub2_nolb (cfg : Config) (s : Str) (h : ∀ c ∈ s, ¬c = lb) :
    sub2 cfg s = s := by
  have h2 := sub2_nolb_append cfg s [] (s.length + 1) (by simp) h
  rw [List.append_nil] at h2
  rw [show sub2 cfg ([] : Str) = [] from rfl, List.append_nil] at h2
  exact h2

/-- Pass 3 is the identity on brace-free strings. -/
theorem sub3_nolb (cfg : Config) (s : Str) (h : ∀ c ∈ s, ¬c = lb) :
    sub3 cfg s = s := by
  have h2 := sub3_nolb_append cfg s [] (s.length + 1) (by simp) h
  rw [List.append_nil] at h2
  rw [show sub3 cfg ([] : Str) = [] from rfl, List.append_nil] at h2
  exact h2

/-- No residual marker in a brace-free string. -/
theorem hasMarker_false_of_nolb (s : Str) (h : ∀ c ∈ s, ¬c = lb) :
    hasMarker s = false := by
  induction s with
  | nil => rfl
  | cons c rest ih =>
    simp only [hasMarker, tryVar_none_head c rest (h c (by simp))]
    simp [ih (fun d hd => h d (by simp [hd]))]

/-- A list is a prefix of itself extended. -/
theorem prefixOf_append_self : ∀ (p t : Str), prefixOf p (p ++ t) = true := by
  intro p t
  induction p with
  | nil => rfl
  | cons c p2 ih => simp [prefixOf, ih]

/-- Pass 1 is the identity on brace-free strings. -/
theorem sub1_nolb (cfg : Config) (s : Str) (h : ∀ c ∈ s, ¬c = lb) :
    sub1 cfg s = s := by
  have h2 := sub1_nolb_append cfg s [] (s.length + 1) (by simp) h
  rw [List.append_nil] at h2
  rw [show sub1 cfg ([] : Str) = [] from rfl, List.append_nil] at h2
  exact h2

/-- findSplit finds the boundary occurrence after a brace-free prefix. -/
theorem findSplit_boundary : ∀ (before p2 after : Str),
    (∀ c ∈ before, ¬c = lb) →
    findSplit (lb :: p2) (before ++ ((lb :: p2) ++ after)) = some (before, after) := by
  intro before
  induction before with
  | nil =>
    intro p2 after _
    rw [List.nil_append]
    have hpre : prefixOf (lb :: p2) ((lb :: p2) ++ after) = true :=
      prefixOf_append_self (lb :: p2) after
    rw [show (lb :: p2) ++ after = lb :: (p2 ++ after) from rfl] at hpre ⊢
    simp only [findSplit, hpre, if_true]
    rw [show (lb :: p2).length = p2.length + 1 from rfl, List.drop_succ_cons]
    rw [List.drop_left]
  | cons c bs ih =>
    intro p2 after h
    have hc : ¬c = lb := h c (by simp)
    rw [show (c :: bs) ++ ((lb :: p2) ++ after) = c :: (bs ++ ((lb :: p2) ++ after))
      from rfl]
    have hnp : prefixOf (lb :: p2) (c :: (bs ++ ((lb :: p2) ++ after))) = false := by
      simp only [prefixOf, Bool.and_eq_false_iff]
      left
      simp only [decide_eq_false_iff_not]
      intro heq
      exact hc heq.symm
    simp only [findSplit, hnp, Bool.false_eq_true, if_false]
    rw [ih p2 after (fun d hd => h d (by simp [hd]))]

/-- One simple-variable marker at the head of the string: pass 1 replaces
it and continues after it. -/
theorem sub1_marker (cfg : Config) (k rest : Str) (hk : k ≠ [])
    (hknorb : ∀ c ∈ k, ¬c = rb) :
    sub1 cfg (lb :: lb :: (k ++ rb :: rb :: rest)) = varRepl cfg k ++ sub1 cfg rest := by
  have hke : k.isEmpty = false := by
    cases k with
    | nil => exact absurd rfl hk
    | cons a b => rfl
  have htake : (k ++ rb :: rb :: rest).takeWhile notRb = k := by
    rw [takeWhile_app_all notRb k _ (fun c hc => by simp [notRb, hknorb c hc])]
    simp [List.takeWhile_cons, notRb]
  have hdrop : (k ++ rb :: rb :: rest).dropWhile notRb = rb :: rb :: rest := by
    rw [dropWhile_app_all notRb k _ (fun c hc => by simp [notRb, hknorb c hc])]
    simp [List.dropWhile_cons, notRb]
  have hTV : tryVar (lb :: lb :: (k ++ rb :: rb :: rest)) = some (k, rest) := by
    simp only [tryVar, hdrop, htake, hke]
    simp
  have e := sub1Go_cons_some cfg (lb :: lb :: (k ++ rb :: rb :: rest)).length lb
    (lb :: (k ++ rb :: rb :: rest)) k rest hTV
  have hfl : rest.length < (lb :: lb :: (k ++ rb :: rb :: rest)).length := by
    simp only [List.length_cons, List.length_append]
    omega
  calc sub1 cfg (lb :: lb :: (k ++ rb :: rb :: rest))
      = sub1Go cfg ((lb :: lb :: (k ++ rb :: rb :: rest)).length + 1)
          (lb :: lb :: (k ++ rb :: rb :: rest)) := rfl
    _ = varRepl cfg k ++ sub1Go cfg (lb :: lb :: (k ++ rb :: rb :: rest)).length rest := e
    _ = varRepl cfg k ++ sub1 cfg rest := by
        rw [sub1Go_fuel cfg (lb :: lb :: (k ++ rb :: rb :: rest)).length (rest.length + 1)
          rest hfl (by omega)]
        rfl

/-- One block at the head of the string: pass 2 resolves it by truthiness
and continues after its close marker. -/
theorem sub2_block (cfg : Config) (k content rest : Str) (hk : k ≠ [])
    (hknorb : ∀ c ∈ k, ¬c = rb) (hcontent : ∀ c ∈ content, ¬c = lb) :
    sub2 cfg (lb :: lb :: '#' ::
        (k ++ rb :: rb :: (content ++ lb :: lb :: '/' :: (k ++ rb :: rb :: rest)))) =
      (if jsTruthy (lookupA (jsTrim k) cfg) then content else []) ++ sub2 cfg rest := by
  have hke : k.isEmpty = false := by
    cases k with
    | nil => exact absurd rfl hk
    | cons a b => rfl
  have htake : (k ++ rb :: rb ::
      (content ++ lb :: lb :: '/' :: (k ++ rb :: rb :: rest))).takeWhile notRb = k := by
    rw [takeWhile_app_all notRb k _ (fun c hc => by simp [notRb, hknorb c hc])]
    simp [List.takeWhile_cons, notRb]
  have hdrop : (k ++ rb :: rb ::
      (content ++ lb :: lb :: '/' :: (k ++ rb :: rb :: rest))).dropWhile notRb =
      rb :: rb :: (content ++ lb :: lb :: '/' :: (k ++ rb :: rb :: rest)) := by
    rw [dropWhile_app_all notRb k _ (fun c hc => by simp [notRb, hknorb c hc])]
    simp [List.dropWhile_cons, notRb]
  have hfs : findSplit ([lb, lb, '/'] ++ k ++ [rb, rb])
      (content ++ lb :: lb :: '/' :: (k ++ rb :: rb :: rest)) =
      some (content, rest) := by
    have hshape : ([lb, lb, '/'] ++ k ++ [rb, rb] : Str) =
        lb :: (lb :: '/' :: (k ++ [rb, rb])) := by
      simp [List.append_assoc]
    have hshape2 : content ++ lb :: lb :: '/' :: (k ++ rb :: rb :: rest) =
        content ++ ((lb :: (lb :: '/' :: (k ++ [rb, rb]))) ++ rest) := by
      simp [List.append_assoc]
    rw [hshape, hshape2]
    exact findSplit_boundary content (lb :: '/' :: (k ++ [rb, rb])) rest hcontent
  have hTB : tryBlock (lb :: lb :: '#' ::
      (k ++ rb :: rb :: (content ++ lb :: lb :: '/' :: (k ++ rb :: rb :: rest)))) =
      some (k, content, rest) := by
    simp only [tryBlock, hdrop, htake, hke, hfs]
    simp
  have e := sub2Go_cons_some cfg
    (lb :: lb :: '#' :: (k ++ rb :: rb :: (content ++ lb :: lb :: '/' :: (k ++ rb :: rb :: rest)))).length
    lb
    (lb :: '#' :: (k ++ rb :: rb :: (content ++ lb :: lb :: '/' :: (k ++ rb :: rb :: rest))))
    k content rest hTB
  have hfl : rest.length <
      (lb :: lb :: '#' :: (k ++ rb :: rb :: (content ++ lb :: lb :: '/' :: (k ++ rb :: rb :: rest)))).length := by
    simp only [List.length_cons, List.length_append]
    omega
  calc sub2 cfg (lb :: lb :: '#' ::
        (k ++ rb :: rb :: (content ++ lb :: lb :: '/' :: (k ++ rb :: rb :: rest))))
      = sub2Go cfg
          ((lb :: lb :: '#' :: (k ++ rb :: rb :: (content ++ lb :: lb :: '/' :: (k ++ rb :: rb :: rest)))).length + 1)
          (lb :: lb :: '#' ::
            (k ++ rb :: rb :: (content ++ lb :: lb :: '/' :: (k ++ rb :: rb :: rest)))) := rfl
    _ = (if jsTruthy (lookupA (jsTrim k) cfg) then content else []) ++
          sub2Go cfg
            (lb :: lb :: '#' :: (k ++ rb :: rb :: (content ++ lb :: lb :: '/' :: (k ++ rb :: rb :: rest)))).length
            rest := e
    _ = (if jsTruthy (lookupA (jsTrim k) cfg) then content else []) ++ sub2 cfg rest := by
        rw [sub2Go_fuel cfg _ (rest.length + 1) rest hfl (by omega)]
        rfl

/-- C1 (amended): a top-level block whose key is bound to ANY truthy value
- lists included, since JS arrays are truthy - renders its content exactly
once, unchanged (the conditional pass consumes every top-level block before
the loop pass runs); a falsy or absent value renders as the empty string.
The second conjunct records that every array value is truthy, so the
claimed per-item loop rendering never applies to a top-level block. -/
theorem blockRender_truthy_once (k content : Str) (cfg : Config)
    (hk : k ≠ []) (hknorb : ∀ c ∈ k, ¬c = rb) (hksp : ∀ c ∈ k, jsSpace c = false)
    (hcontent : ∀ c ∈ content, ¬c = lb)
    (h1 : lookupA ('#' :: k) cfg = none) (h2 : lookupA ('/' :: k) cfg = none) :
    (replaceTemplateVariables
        (lb :: lb :: '#' ::
          (k ++ rb :: rb :: (content ++ lb :: lb :: '/' :: (k ++ rb :: rb :: ([] : Str)))))
        cfg =
      if jsTruthy (lookupA k cfg) then content else []) ∧
    ∀ items : List JsValue, jsTruthy (some (JsValue.arr items)) = true := by
  have hksp2 : ∀ c ∈ ('#' :: k), jsSpace c = false := by
    intro c hc
    rcases List.mem_cons.mp hc with rfl | hm
    · decide
    · exact hksp c hm
  have hksp3 : ∀ c ∈ ('/' :: k), jsSpace c = false := by
    intro c hc
    rcases List.mem_cons.mp hc with rfl | hm
    · decide
    · exact hksp c hm
  have hknorb2 : ∀ c ∈ ('#' :: k), ¬c = rb := by
    intro c hc
    rcases List.mem_cons.mp hc with rfl | hm
    · decide
    · exact hknorb c hm
  have hknorb3 : ∀ c ∈ ('/' :: k), ¬c = rb := by
    intro c hc
    rcases List.mem_cons.mp hc with rfl | hm
    · decide
    · exact hknorb c hm
  constructor
  · show sub3 cfg (sub2 cfg (sub1 cfg _)) = _
    have hv1 : varRepl cfg ('#' :: k) = [lb, lb] ++ ('#' :: k) ++ [rb, rb] := by
      unfold varRepl
      rw [jsTrim_noSpace ('#' :: k) hksp2, h1]
    have hv2 : varRepl cfg ('/' :: k) = [lb, lb] ++ ('/' :: k) ++ [rb, rb] := by
      unfold varRepl
      rw [jsTrim_noSpace ('/' :: k) hksp3, h2]
    have hclose : sub1 cfg (lb :: lb :: '/' :: (k ++ rb :: rb :: ([] : Str))) =
        [lb, lb] ++ ('/' :: k) ++ [rb, rb] := by
      have := sub1_marker cfg ('/' :: k) [] (by simp) hknorb3
      rw [hv2] at this
      simpa using this
    have hmid : sub1 cfg (content ++ lb :: lb :: '/' :: (k ++ rb :: rb :: ([] : Str))) =
        content ++ ([lb, lb] ++ ('/' :: k) ++ [rb, rb]) := by
      have := sub1_nolb_append cfg content
        (lb :: lb :: '/' :: (k ++ rb :: rb :: ([] : Str)))
        ((content ++ lb :: lb :: '/' :: (k ++ rb :: rb :: ([] : Str))).length + 1)
        (Nat.lt_succ_self _) hcontent
      rw [show sub1 cfg (content ++ lb :: lb :: '/' :: (k ++ rb :: rb :: ([] : Str))) =
        sub1Go cfg ((content ++ lb :: lb :: '/' :: (k ++ rb :: rb :: ([] : Str))).length + 1)
          (content ++ lb :: lb :: '/' :: (k ++ rb :: rb :: ([] : Str))) from rfl, this, hclose]
    have hs1 : sub1 cfg (lb :: lb :: '#' ::
        (k ++ rb :: rb :: (content ++ lb :: lb :: '/' :: (k ++ rb :: rb :: ([] : Str))))) =
        lb :: lb :: '#' ::
          (k ++ rb :: rb :: (content ++ lb :: lb :: '/' :: (k ++ rb :: rb :: ([] : Str)))) := by
      have := sub1_marker cfg ('#' :: k)
        (content ++ lb :: lb :: '/' :: (k ++ rb :: rb :: ([] : Str))) (by simp) hknorb2
      rw [hv1, hmid] at this
      rw [show (lb :: lb :: '#' ::
        (k ++ rb :: rb :: (content ++ lb :: lb :: '/' :: (k ++ rb :: rb :: ([] : Str)))) : Str) =
        lb :: lb :: (('#' :: k) ++ rb :: rb ::
          (content ++ lb :: lb :: '/' :: (k ++ rb :: rb :: ([] : Str)))) from rfl, this]
      simp [List.append_assoc]
    rw [hs1]
    have hs2 : sub2 cfg (lb :: lb :: '#' ::
        (k ++ rb :: rb :: (content ++ lb :: lb :: '/' :: (k ++ rb :: rb :: ([] : Str))))) =
        if jsTruthy (lookupA k cfg) then content else [] := by
      have := sub2_block cfg k content [] hk hknorb hcontent
      rw [jsTrim_noSpace k hksp, show sub2 cfg ([] : Str) = [] from rfl] at this
      simpa using this
    rw [hs2]
    by_cases ht : jsTruthy (lookupA k cfg) = true
    · simp only [ht, if_true]
      exact sub3_nolb cfg content hcontent
    · simp only [ht, Bool.false_eq_true, if_false]
      rfl
  · intro items
    rfl

/-- Witness for blockRender_truthy_once: a list-valued key renders the
block content exactly once. -/
theorem blockRender_truthy_once_witness :
    replaceTemplateVariables
        (lb :: lb :: '#' ::
          (strOf "items" ++ rb :: rb ::
            (strOf "- x " ++ lb :: lb :: '/' :: (strOf "items" ++ rb :: rb :: ([] : Str)))))
        [(strOf "items", JsValue.arr [JsValue.obj [(strOf "name", JsValue.str (strOf "a"))]])] =
      strOf "- x " := by
  have h := (blockRender_truthy_once (strOf "items") (strOf "- x ")
    [(strOf "items", JsValue.arr [JsValue.obj [(strOf "name", JsValue.str (strOf "a"))]])]
    (by decide) (by decide) (by decide) (by decide) rfl rfl).1
  rw [h]
  rfl

/-- Wrapper: pass 1 walks over a brace-free prefix unchanged. -/
theorem sub1_nolb_app (cfg : Config) (s t : Str) (hs : ∀ c ∈ s, ¬c = lb) :
    sub1 cfg (s ++ t) = s ++ sub1 cfg t :=
  sub1_nolb_append cfg s t ((s ++ t).length + 1) (Nat.lt_succ_self _) hs

/-- Wrapper: pass 2 walks over a brace-free prefix unchanged. -/
theorem sub2_nolb_app (cfg : Config) (s t : Str) (hs : ∀ c ∈ s, ¬c = lb) :
    sub2 cfg (s ++ t) = s ++ sub2 cfg t :=
  sub2_nolb_append cfg s t ((s ++ t).length + 1) (Nat.lt_succ_self _) hs

/-- Wrapper: pass 3 walks over a brace-free prefix unchanged. -/
theorem sub3_nolb_app (cfg : Config) (s t : Str) (hs : ∀ c ∈ s, ¬c = lb) :
    sub3 cfg (s ++ t) = s ++ sub3 cfg t :=
  sub3_nolb_append cfg s t ((s ++ t).length + 1) (Nat.lt_succ_self _) hs

/-- cfg2: a configuration supplying a value for all three placeholder keys
of the representative fully-specified template: the simple variable x, the
in-block simple variable y and the block key b. -/
def cfg2 (vx vy : Str) (vb : JsValue) : Config :=
  [(strOf "x", JsValue.str vx), (strOf "y", JsValue.str vy), (strOf "b", vb)]

/-- Rendering the representative fully-specified template: the simple
variables (including the one inside the block) are substituted by pass 1,
and the block is resolved by pass 2. -/
theorem fullConfig_render_eq (vx vy : Str) (vb : JsValue)
    (hx : ∀ c ∈ vx, ¬c = lb) (hy : ∀ c ∈ vy, ¬c = lb) :
    replaceTemplateVariables
        (strOf "A " ++
          (lb :: lb :: (strOf "x" ++ (rb :: rb ::
            (strOf " B " ++
              (lb :: lb :: (strOf "#b" ++ (rb :: rb ::
                (strOf " C " ++
                  (lb :: lb :: (strOf "y" ++ (rb :: rb ::
                    (strOf " D " ++
                      (lb :: lb :: (strOf "/b" ++ (rb :: rb :: strOf " E"))))))))))))))))
        (cfg2 vx vy vb) =
      strOf "A " ++ (vx ++ (strOf " B " ++
        ((if jsTruthy (some vb) then strOf " C " ++ (vy ++ strOf " D ") else []) ++
          strOf " E"))) := by
  have hcontent : ∀ c ∈ (strOf " C " ++ (vy ++ strOf " D ")), ¬c = lb := by
    intro ch hc
    rcases List.mem_append.mp hc with h | h
    · exact (by decide : ∀ cc ∈ strOf " C ", ¬cc = lb) ch h
    · rcases List.mem_append.mp h with h | h
      · exact hy ch h
      · exact (by decide : ∀ cc ∈ strOf " D ", ¬cc = lb) ch h
  unfold replaceTemplateVariables
  rw [sub1_nolb_app (cfg2 vx vy vb) (strOf "A ") _ (by decide)]
  rw [sub1_marker (cfg2 vx vy vb) (strOf "x") _ (by decide) (by decide)]
  rw [show varRepl (cfg2 vx vy vb) (strOf "x") = vx from rfl]
  rw [sub1_nolb_app (cfg2 vx vy vb) (strOf " B ") _ (by decide)]
  rw [sub1_marker (cfg2 vx vy vb) (strOf "#b") _ (by decide) (by decide)]
  rw [show varRepl (cfg2 vx vy vb) (strOf "#b") = strOf "\x7b\x7b#b\x7d\x7d" from rfl]
  rw [sub1_nolb_app (cfg2 vx vy vb) (strOf " C ") _ (by decide)]
  rw [sub1_marker (cfg2 vx vy vb) (strOf "y") _ (by decide) (by decide)]
  rw [show varRepl (cfg2 vx vy vb) (strOf "y") = vy from rfl]
  rw [sub1_nolb_app (cfg2 vx vy vb) (strOf " D ") _ (by decide)]
  rw [sub1_marker (cfg2 vx vy vb) (strOf "/b") _ (by decide) (by decide)]
  rw [show varRepl (cfg2 vx vy vb) (strOf "/b") = strOf "\x7b\x7b/b\x7d\x7d" from rfl]
  rw [sub1_nolb (cfg2 vx vy vb) (strOf " E") (by decide)]
  rw [sub2_nolb_app (cfg2 vx vy vb) (strOf "A ") _ (by decide)]
  rw [sub2_nolb_app (cfg2 vx vy vb) vx _ hx]
  rw [sub2_nolb_app (cfg2 vx vy vb) (strOf " B ") _ (by decide)]
  have hQeq : (strOf "\x7b\x7b#b\x7d\x7d" ++
      (strOf " C " ++ (vy ++ (strOf " D " ++ (strOf "\x7b\x7b/b\x7d\x7d" ++ strOf " E")))) : Str) =
      lb :: lb :: '#' :: (strOf "b" ++ (rb :: rb ::
        ((strOf " C " ++ (vy ++ strOf " D ")) ++
          (lb :: lb :: '/' :: (strOf "b" ++ (rb :: rb :: strOf " E")))))) := by
    rw [List.append_assoc, List.append_assoc]
    rfl
  rw [hQeq]
  rw [sub2_block (cfg2 vx vy vb) (strOf "b") (strOf " C " ++ (vy ++ strOf " D "))
    (strOf " E") (by decide) (by decide) hcontent]
  rw [show lookupA (jsTrim (strOf "b")) (cfg2 vx vy vb) = some vb from rfl]
  rw [sub2_nolb (cfg2 vx vy vb) (strOf " E") (by decide)]
  rw [sub3_nolb_app (cfg2 vx vy vb) (strOf "A ") _ (by decide)]
  rw [sub3_nolb_app (cfg2 vx vy vb) vx _ hx]
  rw [sub3_nolb_app (cfg2 vx vy vb) (strOf " B ") _ (by decide)]
  by_cases ht : jsTruthy (some vb) = true
  · rw [if_pos ht]
    rw [sub3_nolb_app (cfg2 vx vy vb) (strOf " C " ++ (vy ++ strOf " D ")) (strOf " E")
      hcontent]
    rw [sub3_nolb (cfg2 vx vy vb) (strOf " E") (by decide)]
  · rw [if_neg ht]
    rw [show (([] : Str) ++ strOf " E") = strOf " E" from rfl]
    rw [sub3_nolb (cfg2 vx vy vb) (strOf " E") (by decide)]

/-- C2 (amended): a configuration supplies a value for every placeholder
key of the template AT TOP LEVEL (here x, the in-block y, and the block key
b); then rendering leaves no residual marker: the in-block variable is
substituted by the simple-variable pass from the top-level configuration
(not per list item, which the counterexample shows never happens for
top-level blocks), and the block itself is consumed by the conditional
pass. -/
theorem fullConfig_render (vx vy : Str) (vb : JsValue)
    (hx : ∀ c ∈ vx, ¬c = lb) (hy : ∀ c ∈ vy, ¬c = lb) :
    replaceTemplateVariables
        (strOf "A " ++
          (lb :: lb :: (strOf "x" ++ (rb :: rb ::
            (strOf " B " ++
              (lb :: lb :: (strOf "#b" ++ (rb :: rb ::
                (strOf " C " ++
                  (lb :: lb :: (strOf "y" ++ (rb :: rb ::
                    (strOf " D " ++
                      (lb :: lb :: (strOf "/b" ++ (rb :: rb :: strOf " E"))))))))))))))))
        (cfg2 vx vy vb) =
      strOf "A " ++ (vx ++ (strOf " B " ++
        ((if jsTruthy (some vb) then strOf " C " ++ (vy ++ strOf " D ") else []) ++
          strOf " E"))) ∧
    hasMarker
      (strOf "A " ++ (vx ++ (strOf " B " ++
        ((if jsTruthy (some vb) then strOf " C " ++ (vy ++ strOf " D ") else []) ++
          strOf " E")))) = false := by
  refine ⟨fullConfig_render_eq vx vy vb hx hy, ?_⟩
  apply hasMarker_false_of_nolb
  intro c hc
  rcases List.mem_append.mp hc with h | h
  · exact (by decide : ∀ cc ∈ strOf "A ", ¬cc = lb) c h
  · rcases List.mem_append.mp h with h | h
    · exact hx c h
    · rcases List.mem_append.mp h with h | h
      · exact (by decide : ∀ cc ∈ strOf " B ", ¬cc = lb) c h
      · rcases List.mem_append.mp h with h | h
        · by_cases ht : jsTruthy (some vb) = true
          · rw [if_pos ht] at h
            rcases List.mem_append.mp h with h | h
            · exact (by decide : ∀ cc ∈ strOf " C ", ¬cc = lb) c h
            · rcases List.mem_append.mp h with h | h
              · exact hy c h
              · exact (by decide : ∀ cc ∈ strOf " D ", ¬cc = lb) c h
          · rw [if_neg ht] at h
            simp at h
        · exact (by decide : ∀ cc ∈ strOf " E", ¬cc = lb) c h

/-- Witness for fullConfig_render at concrete brace-free values. -/
theorem fullConfig_render_witness :
    replaceTemplateVariables
        (strOf "A " ++
          (lb :: lb :: (strOf "x" ++ (rb :: rb ::
            (strOf " B " ++
              (lb :: lb :: (strOf "#b" ++ (rb :: rb ::
                (strOf " C " ++
                  (lb :: lb :: (strOf "y" ++ (rb :: rb ::
                    (strOf " D " ++
                      (lb :: lb :: (strOf "/b" ++ (rb :: rb :: strOf " E"))))))))))))))))
        (cfg2 (strOf "me") (strOf "now") (JsValue.boolean true)) =
      strOf "A " ++ (strOf "me" ++ (strOf " B " ++
        ((if jsTruthy (some (JsValue.boolean true)) then
            strOf " C " ++ (strOf "now" ++ strOf " D ")
          else []) ++
          strOf " E"))) ∧
    hasMarker
      (strOf "A " ++ (strOf "me" ++ (strOf " B " ++
        ((if jsTruthy (some (JsValue.boolean true)) then
            strOf " C " ++ (strOf "now" ++ strOf " D ")
          else []) ++
          strOf " E")))) = false :=
  fullConfig_render (strOf "me") (strOf "now") (JsValue.boolean true)
    (by decide) (by decide)

/-! ## A small backtracking regex engine

The JS regexes of `flutter-package-manager.ts` and
`flutter-code-generator.ts` use only: character classes, literals,
concatenation, alternation, greedy `(...)?`, greedy `+`/`*` over a class,
the lazy `(.+?)`, one negative lookahead, `$`, and numbered capture groups.
`matchList` enumerates engine states in the JS backtracking preference
order, so its head is the JS match. The `/i` flag is modelled by matching
the lower-cased subject against a pattern with lower-cased literals
(ASCII, consistent with jsToLower). -/

inductive RE where
  | eps
  | cls (p : Char → Bool)
  | lit (s : Str)
  | cat (a b : RE)
  | alt (a b : RE)
  | opt (a : RE)
  | starc (p : Char → Bool)
  | plusc (p : Char → Bool)
  | lazyplusc (p : Char → Bool)
  | grp (n : Nat) (a : RE)
  | nla (a : RE)
  | eos

/-- All ways a regex can match a prefix of `s`: remaining suffix plus the
captured groups, in JS backtracking preference order. -/
def matchList : RE → Str → List (Str × List (Nat × Str))
  | .eps, s => [(s, [])]
  | .cls p, [] => []
  | .cls p, c :: r => if p c then [(r, [])] else []
  | .lit l, s => if prefixOf l s then [(s.drop l.length, [])] else []
  | .cat a b, s => (matchList a s).flatMap (fun pr =>
      (matchList b pr.1).map (fun qr => (qr.1, pr.2 ++ qr.2)))
  | .alt a b, s => matchList a s ++ matchList b s
  | .opt a, s => matchList a s ++ [(s, [])]
  | .starc p, s =>
      let n := (s.takeWhile p).length
      (List.range (n + 1)).map (fun j => (s.drop (n - j), []))
  | .plusc p, s =>
      let n := (s.takeWhile p).length
      (List.range n).map (fun j => (s.drop (n - j), []))
  | .lazyplusc p, s =>
      let n := (s.takeWhile p).length
      (List.range n).map (fun j => (s.drop (j + 1), []))
  | .grp n a, s => (matchList a s).map (fun pr =>
      (pr.1, (n, s.take (s.length - pr.1.length)) :: pr.2))
  | .nla a, s => if (matchList a s).isEmpty then [(s, [])] else []
  | .eos, s => if s.isEmpty then [(s, [])] else []

/-- First match scanning start positions left to right (String.match /
RegExp.test): the captures of the JS match, if any. -/
def reFind (r : RE) : Str → Option (List (Nat × Str))
  | [] =>
    match matchList r [] with
    | pr :: _ => some pr.2
    | [] => none
  | c :: t =>
    match matchList r (c :: t) with
    | pr :: _ => some pr.2
    | [] => reFind r t

/-- RegExp.prototype.test. -/
def reTest (r : RE) (s : Str) : Bool := (reFind r s).isSome

/-- Lookup of one numbered capture. -/
def lookupCap (n : Nat) : List (Nat × Str) → Option Str
  | [] => none
  | (k, v) :: r => if k = n then some v else lookupCap n r

/-- `prompt.match(re)` followed by reading `match[n]`. -/
def reCapture (n : Nat) (r : RE) (s : Str) : Option Str :=
  (reFind r s).bind (lookupCap n)

/-- Concatenation of a pattern list. -/
def cats : List RE → RE
  | [] => .eps
  | [r] => r
  | r :: rest => .cat r (cats rest)

/-- Alternation of a nonempty pattern list. -/
def alts : List RE → RE
  | [] => .eps
  | [r] => r
  | r :: rest => .alt r (alts rest)

/-- Literal pattern from a string literal. -/
def reL (s : String) : RE := .lit (strOf s)

/-- `\s+`. -/
def reSp : RE := .plusc jsSpace

/-- `\w+`. -/
def reWd : RE := .plusc isWordChar

/-- `(word\s+)?` - the optional article groups `(a\s+)?`, `(the\s+)?`,
`(?:called\s+)?` and friends. -/
def optW (s : String) : RE := .opt (.cat (reL s) reSp)

/-- `.` (no s flag: anything but a newline). -/
def dotC : Char → Bool := fun c => !(c = '\n')

/-- `[가-힯]` - the Korean syllable block used by the Korean
screen-creation patterns. -/
def korChar : Char → Bool := fun c => 0xAC00 ≤ c.toNat && c.toNat ≤ 0xD7AF

/-! ## flutter-package-manager.ts - analyzeEditIntent and its helpers

`@/types/file-manifest` is not part of src/, so FileInfo / FileManifest /
EditType / EditIntent are modelled from their use sites: `files` maps paths
to records whose used fields are `content`, `lastModified`,
`componentInfo?.name` and `flutterInfo?.name`. -/

structure FileInfo where
  content : Str
  lastModified : Int
  componentName : Option Str
  flutterName : Option Str
deriving DecidableEq

structure FileManifest where
  files : List (Str × FileInfo)
  entryPoint : Str
  styleFiles : List Str
deriving DecidableEq

inductive EditType where
  | UPDATE_COMPONENT
  | ADD_FEATURE
  | FIX_ISSUE
  | UPDATE_STYLE
  | REFACTOR
  | FULL_REBUILD
  | ADD_DEPENDENCY
  | CREATE_FLUTTER_WIDGET
  | CREATE_FLUTTER_SCREEN
  | UPDATE_FLUTTER_WIDGET
  | ADD_FLUTTER_NAVIGATION
  | ADD_FLUTTER_PACKAGE
deriving DecidableEq

structure EditIntent where
  type : EditType
  targetFiles : List Str
  confidence : ℚ
  description : Str
  suggestedContext : List Str
deriving DecidableEq

structure IntentPattern where
  patterns : List RE
  type : EditType
  fileResolver : Str → FileManifest → List Str

/-- Maximal runs of `p`-characters, left to right (fuelled so the kernel
can evaluate it). -/
def runsGo (p : Char → Bool) : Nat → Str → List Str
  | 0, _ => []
  | _ + 1, [] => []
  | f + 1, c :: r =>
    if p c then ((c :: r).takeWhile p) :: runsGo p f ((c :: r).dropWhile p)
    else runsGo p f r

/-- The maximal `\w+` runs of a string - `\b\w+\b` global matches. -/
def wordRuns (s : Str) : List Str := runsGo isWordChar (s.length + 1) s

/-- Whitespace-separated tokens (maximal non-space runs); this is the
plain-language reading of the spec, NOT what `prompt.split(' ')` does. -/
def wsTokens (s : Str) : List Str := runsGo (fun c => !jsSpace c) (s.length + 1) s

/-- Stopwords of extractComponentNames. A `\b(w1|w2|...)\b` global
replacement by the empty string deletes exactly the maximal word runs
equal (case-insensitively, /i) to a listed word: both ends of an
alternative must sit on word boundaries, which happens precisely at the
edges of a maximal run. -/
def commonStop : List Str :=
  [strOf "the", strOf "a", strOf "an", strOf "in", strOf "on", strOf "to",
   strOf "from", strOf "update", strOf "change", strOf "modify",
   strOf "edit", strOf "fix", strOf "make"]

/-- Stopwords of extractFlutterWidgetNames. -/
def flutterStop : List Str :=
  commonStop ++ [strOf "create", strOf "build", strOf "widget", strOf "screen"]

/-- extractComponentNames: delete stopword runs, lower-case, re-extract
word runs, keep those longer than 2 characters. -/
def extractComponentNames (prompt : Str) : List Str :=
  (((wordRuns prompt).filter
      (fun w => !(commonStop.contains (jsLowerStr w)))).map jsLowerStr).filter
    (fun w => 2 < w.length)

/-- Flutter keywords appended by extractFlutterWidgetNames when present in
the lower-cased prompt. -/
def flutterKeywords : List Str :=
  [strOf "appbar", strOf "scaffold", strOf "container", strOf "column",
   strOf "row", strOf "button", strOf "card", strOf "list", strOf "fab"]

/-- extractFlutterWidgetNames. -/
def extractFlutterWidgetNames (prompt : Str) : List Str :=
  ((((wordRuns prompt).filter
      (fun w => !(flutterStop.contains (jsLowerStr w)))).map jsLowerStr).filter
    (fun w => 2 < w.length)) ++
  flutterKeywords.filter (fun k => strContains (jsLowerStr prompt) k)

/-- `path.split('/').pop()?.toLowerCase() || ''` without the lowering. -/
def lastComp (p : Str) : Str := ((splitOnChar '/' p).getLast?).getD []

/-- `path.split('/').pop()?.toLowerCase() || ''`. -/
def lastCompLower (p : Str) : Str := jsLowerStr (lastComp p)

/-! ### The twelve intent pattern groups (source order) -/

/-- Group 1: CREATE_FLUTTER_WIDGET. -/
def flutterWidgetPatterns : List RE :=
  [cats [reL "create", reSp, optW "a", reWd, reSp, .alt (reL "widget") (reL "screen")],
   cats [reL "build", reSp, optW "a", reWd, reSp, .alt (reL "widget") (reL "screen")],
   cats [reL "make", reSp, optW "a", reWd, reSp, .alt (reL "widget") (reL "screen")],
   cats [reL "add", reSp, optW "a", reL "new", reSp, reWd, reSp, .alt (reL "widget") (reL "screen")],
   cats [reL "implement", reSp, optW "a", reWd, reSp, .alt (reL "widget") (reL "screen")]]

/-- Group 2: CREATE_FLUTTER_SCREEN (with the two Korean patterns). -/
def flutterScreenPatterns : List RE :=
  [cats [reL "create", reSp, optW "a", reWd, reSp, .alt (reL "screen") (reL "page")],
   cats [reL "build", reSp, optW "a", reWd, reSp, .alt (reL "screen") (reL "page")],
   cats [reL "make", reSp, optW "a", reWd, reSp, .alt (reL "screen") (reL "page")],
   cats [reL "new", reSp, .alt (reL "screen") (reL "page")],
   cats [reL "add", reSp, optW "a", reL "new", reSp, .opt (.cat reWd reSp), .alt (reL "screen") (reL "page")],
   cats [.plusc korChar, .starc jsSpace, alts [reL "화면", reL "스크린", reL "페이지"],
     .starc jsSpace, alts [reL "만들어", reL "생성", reL "추가"]],
   cats [alts [reL "화면", reL "스크린", reL "페이지"], .starc dotC,
     alts [reL "만들어", reL "생성", reL "추가"]]]

/-- Group 3: UPDATE_FLUTTER_WIDGET. -/
def updateFlutterWidgetPatterns : List RE :=
  [cats [reL "update", reSp, optW "the", reWd, reSp, reL "widget"],
   cats [reL "change", reSp, optW "the", reWd, reSp, reL "widget"],
   cats [reL "modify", reSp, optW "the", reWd, reSp, reL "widget"],
   cats [reL "edit", reSp, optW "the", reWd, reSp, reL "widget"]]

/-- Group 4: ADD_FLUTTER_NAVIGATION (`\s?` is an optional single space
class). -/
def flutterNavPatterns : List RE :=
  [cats [reL "add", reSp, optW "a", reL "app", .opt (.cls jsSpace), reL "bar"],
   cats [reL "implement", reSp, reL "app", .opt (.cls jsSpace), reL "bar"],
   cats [reL "create", reSp, reL "app", .opt (.cls jsSpace), reL "bar"],
   cats [reL "add", reSp, optW "a", reL "bottom", reSp, reL "navigation"],
   cats [reL "implement", reSp, reL "bottom", reSp, reL "navigation"],
   cats [reL "add", reSp, optW "a", reL "floating", reSp, reL "action", reSp, reL "button"],
   cats [reL "add", reSp, optW "a", reL "fab"],
   cats [reL "implement", reSp, reL "navigation"],
   cats [reL "add", reSp, reL "navigation"],
   cats [reL "add", reSp, reL "tab", .opt (.cls jsSpace), reL "bar"],
   cats [reL "implement", reSp, reL "tab", .opt (.cls jsSpace), reL "bar"]]

/-- Group 5: ADD_FLUTTER_PACKAGE. -/
def flutterPackagePatterns : List RE :=
  [cats [reL "add", reSp, reL "flutter", reSp, .opt (.cat reWd reSp), .alt (reL "package") (reL "dependency")],
   cats [reL "install", reSp, reL "flutter", reSp, .opt (.cat reWd reSp), .alt (reL "package") (reL "dependency")],
   cats [reL "use", reSp, reL "flutter", reSp, .alt (reL "package") (reL "library")],
   cats [reL "add", reSp, reWd, reSp, reL "flutter", reSp, .alt (reL "package") (reL "library")],
   cats [reL "flutter", reSp, reL "pub", reSp, reL "add"],
   cats [reL "add", reSp, reWd, reSp, .alt (reL "package") (reL "dependency")],
   cats [reL "install", reSp, reWd, reSp, .alt (reL "package") (reL "dependency")]]

/-- Group 6: UPDATE_COMPONENT. -/
def updateComponentPatterns : List RE :=
  [cats [reL "update", reSp, optW "the", reWd, reSp, alts [reL "component", reL "section", reL "page"]],
   cats [reL "change", reSp, optW "the", reWd],
   cats [reL "modify", reSp, optW "the", reWd],
   cats [reL "edit", reSp, optW "the", reWd],
   cats [reL "fix", reSp, optW "the", reWd, reSp, alts [reL "styling", reL "style", reL "css", reL "layout"]],
   cats [reL "remove", reSp, .starc dotC, reSp,
     alts [reL "button", reL "link", reL "text", reL "element", reL "section"]],
   cats [reL "delete", reSp, .starc dotC, reSp,
     alts [reL "button", reL "link", reL "text", reL "element", reL "section"]],
   cats [reL "hide", reSp, .starc dotC, reSp,
     alts [reL "button", reL "link", reL "text", reL "element", reL "section"]]]

/-- Group 7: ADD_FEATURE. -/
def addFeaturePatterns : List RE :=
  [cats [reL "add", reSp, optW "a", reL "new", reSp, reWd, reSp,
     alts [reL "page", reL "section", reL "feature", reL "component"]],
   cats [reL "create", reSp, optW "a", reWd, reSp,
     alts [reL "page", reL "section", reL "feature", reL "component"]],
   cats [reL "implement", reSp, optW "a", reWd, reSp, alts [reL "page", reL "section", reL "feature"]],
   cats [reL "build", reSp, optW "a", reWd, reSp, alts [reL "page", reL "section", reL "feature"]],
   cats [reL "add", reSp, reWd, reSp, reL "to", reSp, optW "the", reWd],
   cats [reL "add", reSp, optW "a", reWd, reSp, .alt (reL "component") (reL "section")],
   cats [reL "include", reSp, optW "a", reWd]]

/-- Group 8: FIX_ISSUE (with the negative lookahead of the fix pattern). -/
def fixIssuePatterns : List RE :=
  [cats [reL "fix", reSp, optW "the", .alt reWd (cats [reWd, reSp, reWd]),
     .nla (.alt (.cat reSp (reL "styling")) (.cat reSp (reL "style")))],
   cats [reL "resolve", reSp, optW "the", reL "error"],
   cats [reL "debug", reSp, optW "the", reWd],
   cats [reL "repair", reSp, optW "the", reWd]]

/-- Group 9: UPDATE_STYLE. -/
def stylePatterns : List RE :=
  [cats [reL "change", reSp, optW "the",
     alts [reL "color", reL "theme", reL "style", reL "styling", reL "css"]],
   cats [reL "update", reSp, optW "the",
     alts [reL "color", reL "theme", reL "style", reL "styling", reL "css"]],
   cats [reL "make", reSp, reL "it", reSp,
     alts [reL "dark", reL "light", reL "blue", reL "red", reL "green"]],
   cats [reL "style", reSp, optW "the", reWd]]

/-- Group 10: REFACTOR. -/
def refactorPatterns : List RE :=
  [cats [reL "refactor", reSp, optW "the", reWd],
   cats [reL "clean", reSp, reL "up", reSp, optW "the", reL "code"],
   cats [reL "reorganize", reSp, optW "the", reWd],
   cats [reL "optimize", reSp, optW "the", reWd]]

/-- Group 11: FULL_REBUILD. -/
def fullRebuildPatterns : List RE :=
  [cats [reL "start", reSp, reL "over"],
   cats [reL "recreate", reSp, reL "everything"],
   cats [reL "rebuild", reSp, optW "the", reL "app"],
   cats [reL "new", reSp, reL "app"],
   cats [reL "from", reSp, reL "scratch"]]

/-- Group 12: ADD_DEPENDENCY. -/
def addDependencyPatterns : List RE :=
  [cats [reL "install", reSp, reWd],
   cats [reL "add", reSp, reWd, reSp, alts [reL "package", reL "library", reL "dependency"]],
   cats [reL "use", reSp, reWd, reSp, .alt (reL "library") (reL "framework")]]

/-- The error-keyword test of findProblemFiles. -/
def problemRe : RE :=
  alts [reL "error", reL "bug", reL "issue", reL "problem", reL "broken", reL "not working"]

/-- The location capture of findFeatureInsertionPoints:
`(?:in|to|on|inside)\s+(?:the\s+)?(\w+)`. -/
def locationRe : RE :=
  cats [alts [reL "in", reL "to", reL "on", reL "inside"], reSp, optW "the", .grp 1 reWd]

/-- The action capture of findComponentByContent:
`(?:remove|delete|hide)\s+(?:the\s+)?(.+?)(?:\s+button|...|\s+section|$)`. -/
def actionRe : RE :=
  cats [alts [reL "remove", reL "delete", reL "hide"], reSp, optW "the",
    .grp 1 (.lazyplusc dotC),
    alts [.cat reSp (reL "button"), .cat reSp (reL "link"), .cat reSp (reL "text"),
      .cat reSp (reL "element"), .cat reSp (reL "section"), .eos]]

/-! ### File resolvers -/

/-- The common UI elements of findComponentFiles. -/
def uiElements : List Str :=
  [strOf "header", strOf "footer", strOf "nav", strOf "sidebar",
   strOf "button", strOf "card", strOf "modal", strOf "hero",
   strOf "banner", strOf "about", strOf "services", strOf "features",
   strOf "testimonials", strOf "gallery", strOf "contact", strOf "team",
   strOf "pricing"]

/-- The nested UI-element loops of findComponentFiles: the first element
present in the prompt that names a file returns exactly that file;
otherwise the next element is tried. -/
def uiElementSearch (lowerPrompt : Str) (files : List (Str × FileInfo)) :
    List Str → List Str
  | [] => []
  | e :: rest =>
    if strContains lowerPrompt e then
      match files.find? (fun pf =>
          strContains (lastCompLower pf.1) (e ++ strOf ".") || lastCompLower pf.1 == e) with
      | some pf => [pf.1]
      | none =>
        match files.find? (fun pf => strContains (lastCompLower pf.1) e) with
        | some pf => [pf.1]
        | none => uiElementSearch lowerPrompt files rest
    else uiElementSearch lowerPrompt files rest

/-- findComponentFiles. -/
def findComponentFiles (prompt : Str) (m : FileManifest) : List Str :=
  let componentWords := extractComponentNames prompt
  let files1 := (m.files.filter (fun pf =>
      componentWords.any (fun w =>
        strContains (lastCompLower pf.1) w ||
        (match pf.2.componentName with
         | some n => strContains (jsLowerStr n) w
         | none => false)))).map Prod.fst
  let files2 :=
    if files1.isEmpty then uiElementSearch (jsLowerStr prompt) m.files uiElements
    else files1
  match files2 with
  | [] => [m.entryPoint]
  | f :: _ => [f]

/-- A quote character of the quoted-string extraction. -/
def isQuote (c : Char) : Bool := c = '"' || c = '\''

/-- `prompt.match(/["']([^"']+)["']/g)` with the quotes stripped: the
greedy `[^"']+` takes the maximal quote-free run, which must be followed
by a closing quote; matching resumes after it, otherwise the scan advances
one character. -/
def quotedScanGo : Nat → Str → List Str
  | 0, _ => []
  | _ + 1, [] => []
  | f + 1, c :: r =>
    if isQuote c then
      let run := r.takeWhile (fun d => !isQuote d)
      if run.isEmpty then quotedScanGo f r
      else
        match r.drop run.length with
        | d :: r2 => if isQuote d then run :: quotedScanGo f r2 else quotedScanGo f r
        | [] => quotedScanGo f r
    else quotedScanGo f r

/-- The quoted search terms of findComponentByContent. -/
def quotedStrings (s : Str) : List Str := quotedScanGo (s.length + 1) s

/-- findComponentByContent. Every use of a search term lower-cases it, so
the /i action capture is taken from the lower-cased prompt. -/
def findComponentByContent (prompt : Str) (m : FileManifest) : List Str :=
  let searchTerms := quotedStrings prompt ++
    (match reCapture 1 actionRe (jsLowerStr prompt) with
     | some t => [jsTrim t]
     | none => [])
  let files := (m.files.filter (fun pf =>
      (strContains pf.1 (strOf ".jsx") || strContains pf.1 (strOf ".tsx")) &&
      searchTerms.any (fun term =>
        strContains (jsLowerStr pf.2.content) (jsLowerStr term)))).map Prod.fst
  match files with
  | [] => findComponentFiles prompt m
  | f :: _ => [f]

/-- findFeatureInsertionPoints. The final push of the entry point happens
only in the no-location branch and only when nothing at all (router files
included) has been collected. -/
def findFeatureInsertionPoints (prompt : Str) (m : FileManifest) : List Str :=
  let lowerPrompt := jsLowerStr prompt
  let pageFiles :=
    if strContains lowerPrompt (strOf "page") then
      ((m.files.filter (fun pf =>
          strContains pf.2.content (strOf "Route") ||
          strContains pf.2.content (strOf "createBrowserRouter") ||
          strContains pf.1 (strOf "router") ||
          strContains pf.1 (strOf "routes"))).map Prod.fst) ++
      (if m.entryPoint.isEmpty then [] else [m.entryPoint])
    else []
  let compFiles :=
    if strContains lowerPrompt (strOf "component") ||
       strContains lowerPrompt (strOf "section") ||
       strContains lowerPrompt (strOf "add") ||
       strContains lowerPrompt (strOf "create") then
      match reCapture 1 locationRe lowerPrompt with
      | some location => findComponentFiles location m
      | none =>
        let fromWords := (extractComponentNames prompt).flatMap (fun w =>
          match findComponentFiles w m with
          | [] => []
          | f :: rest => if f == m.entryPoint then [] else f :: rest)
        if (pageFiles ++ fromWords).isEmpty then [m.entryPoint] else fromWords
    else []
  dedup (pageFiles ++ compFiles)

/-- Stable insertion of one file by descending lastModified. -/
def insertDesc (x : Str × FileInfo) : List (Str × FileInfo) → List (Str × FileInfo)
  | [] => [x]
  | y :: r =>
    if y.2.lastModified ≤ x.2.lastModified then x :: y :: r else y :: insertDesc x r

/-- `Object.entries(files).sort((a, b) => b.lastModified - a.lastModified)`
(stable, as in modern JS engines). -/
def sortByModifiedDesc (l : List (Str × FileInfo)) : List (Str × FileInfo) :=
  l.foldr insertDesc []

/-- findProblemFiles. -/
def findProblemFiles (prompt : Str) (m : FileManifest) : List Str :=
  let errFiles :=
    if reTest problemRe (jsLowerStr prompt) then
      ((sortByModifiedDesc m.files).take 5).map Prod.fst
    else []
  dedup (errFiles ++ findComponentFiles prompt m)

/-- findStyleFiles (no deduplication in the source). -/
def findStyleFiles (prompt : Str) (m : FileManifest) : List Str :=
  m.styleFiles ++
  (match (m.files.map Prod.fst).find? (fun p => strContains p (strOf "tailwind.config")) with
   | some p => [p]
   | none => []) ++
  findComponentFiles prompt m

/-- findRefactorTargets. -/
def findRefactorTargets (prompt : Str) (m : FileManifest) : List Str :=
  findComponentFiles prompt m

/-- findPackageFiles. -/
def findPackageFiles (m : FileManifest) : List Str :=
  (m.files.map Prod.fst).filter (fun p =>
    jsEndsWith p (strOf "package.json") ||
    jsEndsWith p (strOf "vite.config.js") ||
    jsEndsWith p (strOf "tsconfig.json"))

/-- findFlutterInsertionPoints. -/
def findFlutterInsertionPoints (prompt : Str) (m : FileManifest) : List Str :=
  let flutterFiles := (m.files.map Prod.fst).filter (fun p =>
    jsEndsWith p (strOf ".dart") &&
    (strContains p (strOf "lib/") || strContains p (strOf "widgets/")))
  match flutterFiles with
  | [] => [m.entryPoint]
  | f :: _ =>
    match flutterFiles.find? (fun p => strContains p (strOf "main.dart")) with
    | some mf => [mf]
    | none => [f]

/-- findFlutterScreenInsertionPoints. -/
def findFlutterScreenInsertionPoints (prompt : Str) (m : FileManifest) : List Str :=
  let screenFiles := (m.files.map Prod.fst).filter (fun p =>
    jsEndsWith p (strOf ".dart") &&
    (strContains p (strOf "screens/") || strContains p (strOf "pages/") ||
     strContains p (strOf "lib/")))
  match (screenFiles.find? (fun p => strContains p (strOf "main.dart"))).orElse
      (fun _ => screenFiles.find? (fun p => strContains p (strOf "app.dart"))) with
  | some mf => [mf]
  | none => [m.entryPoint]

/-- The common Flutter UI elements of findFlutterWidgetFiles. -/
def flutterElements : List Str :=
  [strOf "button", strOf "card", strOf "list", strOf "container",
   strOf "column", strOf "row", strOf "scaffold"]

/-- The element loop of findFlutterWidgetFiles. -/
def flutterElementSearch (lowerPrompt : Str) (files : List (Str × FileInfo)) :
    List Str → List Str
  | [] => []
  | e :: rest =>
    if strContains lowerPrompt e then
      match files.find? (fun pf =>
          jsEndsWith pf.1 (strOf ".dart") && strContains (lastCompLower pf.1) e) with
      | some pf => [pf.1]
      | none => flutterElementSearch lowerPrompt files rest
    else flutterElementSearch lowerPrompt files rest

/-- findFlutterWidgetFiles. -/
def findFlutterWidgetFiles (prompt : Str) (m : FileManifest) : List Str :=
  let widgetWords := extractFlutterWidgetNames prompt
  let files1 := (m.files.filter (fun pf =>
      jsEndsWith pf.1 (strOf ".dart") &&
      widgetWords.any (fun w =>
        strContains (lastCompLower pf.1) (jsLowerStr w) ||
        (match pf.2.flutterName with
         | some n => strContains (jsLowerStr n) (jsLowerStr w)
         | none => false)))).map Prod.fst
  let files2 :=
    if files1.isEmpty then flutterElementSearch (jsLowerStr prompt) m.files flutterElements
    else files1
  if files2.isEmpty then findFlutterInsertionPoints prompt m else files2

/-- findFlutterNavigationFiles. -/
def findFlutterNavigationFiles (prompt : Str) (m : FileManifest) : List Str :=
  let navFiles := (m.files.map Prod.fst).filter (fun p =>
    jsEndsWith p (strOf ".dart") &&
    (strContains p (strOf "main.dart") || strContains p (strOf "app.dart") ||
     strContains p (strOf "home.dart") || strContains p (strOf "navigation")))
  if navFiles.isEmpty then findFlutterInsertionPoints prompt m else navFiles

/-- findFlutterPackageFiles: note the literal fallback path
"pubspec.yaml", which need not be a key of the manifest. -/
def findFlutterPackageFiles (m : FileManifest) : List Str :=
  let files := (m.files.map Prod.fst).filter (fun p =>
    jsEndsWith p (strOf "pubspec.yaml") || jsEndsWith p (strOf "pubspec.yml"))
  if files.isEmpty then [strOf "pubspec.yaml"] else files

/-- getSuggestedContext: all manifest paths not being edited. -/
def getSuggestedContext (targetFiles : List Str) (m : FileManifest) : List Str :=
  (m.files.map Prod.fst).filter (fun f => !(targetFiles.contains f))

/-- calculateConfidence, over exact rationals. The fourth regex test runs
against the original prompt with /i, modelled on the lower-cased prompt. -/
def calculateConfidence (prompt : Str) (pattern : IntentPattern)
    (targetFiles : List Str) : ℚ :=
  let c1 : ℚ := 1/2
  let c2 := c1 + (match targetFiles with
    | [] => 0
    | f :: _ => if f.isEmpty then 0 else 1/5)
  let c3 := c2 + (if 5 < (splitOnChar ' ' prompt).length then 1/10 else 0)
  let c4 := c3 + (if pattern.patterns.any (fun r => reTest r (jsLowerStr prompt)) then 1/5 else 0)
  min c4 1

/-- generateDescription. -/
def generateDescription (t : EditType) (targetFiles : List Str) : Str :=
  let fileNames := joinWith (strOf ", ") (targetFiles.map lastComp)
  match t with
  | .UPDATE_COMPONENT => strOf "Updating component(s): " ++ fileNames
  | .ADD_FEATURE => strOf "Adding new feature to: " ++ fileNames
  | .FIX_ISSUE => strOf "Fixing issue in: " ++ fileNames
  | .UPDATE_STYLE => strOf "Updating styles in: " ++ fileNames
  | .REFACTOR => strOf "Refactoring: " ++ fileNames
  | .FULL_REBUILD => strOf "Rebuilding entire application"
  | .ADD_DEPENDENCY => strOf "Adding new dependency"
  | .CREATE_FLUTTER_WIDGET => strOf "Creating Flutter widget in: " ++ fileNames
  | .CREATE_FLUTTER_SCREEN => strOf "Creating Flutter screen in: " ++ fileNames
  | .UPDATE_FLUTTER_WIDGET => strOf "Updating Flutter widget in: " ++ fileNames
  | .ADD_FLUTTER_NAVIGATION => strOf "Adding Flutter navigation to: " ++ fileNames
  | .ADD_FLUTTER_PACKAGE => strOf "Adding Flutter package to: " ++ fileNames

/-- The intent pattern list of analyzeEditIntent, in source order. -/
def intentPatterns : List IntentPattern :=
  [⟨flutterWidgetPatterns, .CREATE_FLUTTER_WIDGET, findFlutterInsertionPoints⟩,
   ⟨flutterScreenPatterns, .CREATE_FLUTTER_SCREEN, findFlutterScreenInsertionPoints⟩,
   ⟨updateFlutterWidgetPatterns, .UPDATE_FLUTTER_WIDGET, findFlutterWidgetFiles⟩,
   ⟨flutterNavPatterns, .ADD_FLUTTER_NAVIGATION, findFlutterNavigationFiles⟩,
   ⟨flutterPackagePatterns, .ADD_FLUTTER_PACKAGE, fun _ m => findFlutterPackageFiles m⟩,
   ⟨updateComponentPatterns, .UPDATE_COMPONENT, findComponentByContent⟩,
   ⟨addFeaturePatterns, .ADD_FEATURE, findFeatureInsertionPoints⟩,
   ⟨fixIssuePatterns, .FIX_ISSUE, findProblemFiles⟩,
   ⟨stylePatterns, .UPDATE_STYLE, findStyleFiles⟩,
   ⟨refactorPatterns, .REFACTOR, findRefactorTargets⟩,
   ⟨fullRebuildPatterns, .FULL_REBUILD, fun _ m => [m.entryPoint]⟩,
   ⟨addDependencyPatterns, .ADD_DEPENDENCY, fun _ m => findPackageFiles m⟩]

/-- The double loop over groups and regexes: the first group one of whose
regexes matches the lower-cased prompt. -/
def firstMatch (lowerPrompt : Str) : List IntentPattern → Option IntentPattern
  | [] => none
  | pat :: rest =>
    if pat.patterns.any (fun r => reTest r lowerPrompt) then some pat
    else firstMatch lowerPrompt rest

/-- analyzeEditIntent. -/
def analyzeEditIntent (prompt : Str) (m : FileManifest) : EditIntent :=
  match firstMatch (jsLowerStr prompt) intentPatterns with
  | some pat =>
    let targetFiles := pat.fileResolver prompt m
    ⟨pat.type, targetFiles, calculateConfidence prompt pat targetFiles,
      generateDescription pat.type targetFiles,
      getSuggestedContext targetFiles m⟩
  | none =>
    ⟨.UPDATE_COMPONENT, [m.entryPoint], 3/10,
      strOf "General update to application", []⟩

/-! ### Claims C3, C4, C5 -/

/-- C3 (amended): getSuggestedContext is always disjoint from the target
list, and together with the target list it covers exactly the manifest
keys plus the targets - not the keys alone, because a resolver may return
paths outside the manifest. -/
theorem suggestedContext_partition (tf : List Str) (m : FileManifest) :
    (∀ f ∈ getSuggestedContext tf m, ¬ f ∈ tf) ∧
    (∀ f, (f ∈ getSuggestedContext tf m ∨ f ∈ tf) ↔
      (f ∈ m.files.map Prod.fst ∨ f ∈ tf)) := by
  have hcf : ∀ (l : List Str) (a : Str), ¬ a ∈ l → l.contains a = false := by
    intro l a h
    simp [List.contains_iff_exists_mem_beq]
    exact h
  have hcm : ∀ (l : List Str) (a : Str), l.contains a = false → ¬ a ∈ l := by
    intro l a h hm
    simp [List.contains_iff_exists_mem_beq] at h
    exact h hm
  constructor
  · intro f hf hmem
    rw [getSuggestedContext, List.mem_filter] at hf
    have h2 := hf.2
    rw [Bool.not_eq_true'] at h2
    exact hcm tf f h2 hmem
  · intro f
    constructor
    · rintro (hf | hf)
      · rw [getSuggestedContext, List.mem_filter] at hf
        exact Or.inl hf.1
      · exact Or.inr hf
    · rintro (hf | hf)
      · by_cases htf : f ∈ tf
        · exact Or.inr htf
        · refine Or.inl ?_
          rw [getSuggestedContext, List.mem_filter]
          refine ⟨hf, ?_⟩
          rw [Bool.not_eq_true']
          exact hcf tf f htf
      · exact Or.inr hf

/-- The one-file manifest of the C3 counterexample. -/
def pkgManifest : FileManifest :=
  ⟨[(strOf "lib/main.dart", ⟨strOf "void main() \x7b\x7d", 5, none, none⟩)],
    strOf "lib/main.dart", []⟩

set_option maxRecDepth 100000 in
/-- C3 (counterexample to the claim as stated): the prompt "flutter pub
add" resolves through findFlutterPackageFiles to the literal path
pubspec.yaml, which is not a key of the manifest, so the union of
suggestedContext and targetFiles is strictly larger than the key set. -/
theorem suggestedContext_union_claim_false :
    (strOf "pubspec.yaml") ∈
      (analyzeEditIntent (strOf "flutter pub add") pkgManifest).targetFiles ∧
    ¬ (strOf "pubspec.yaml") ∈ pkgManifest.files.map Prod.fst ∧
    (analyzeEditIntent (strOf "flutter pub add") pkgManifest).targetFiles =
      [strOf "pubspec.yaml"] ∧
    (analyzeEditIntent (strOf "flutter pub add") pkgManifest).suggestedContext =
      [strOf "lib/main.dart"] := by
  refine ⟨by decide, by decide, by decide, by decide⟩

/-- No group matches: the double loop returns none. -/
theorem firstMatch_none (lp : Str) : ∀ l : List IntentPattern,
    (∀ pat ∈ l, ∀ r ∈ pat.patterns, reTest r lp = false) → firstMatch lp l = none := by
  intro l
  induction l with
  | nil => intro _; rfl
  | cons pat rest ih =>
    intro h
    rw [firstMatch]
    have hany : pat.patterns.any (fun r => reTest r lp) = false := by
      rw [List.any_eq_false]
      intro r hr
      simp [h pat (List.mem_cons_self pat rest) r hr]
    rw [hany]
    simp only [Bool.false_eq_true, if_false]
    exact ih (fun q hq => h q (List.mem_cons_of_mem pat hq))

/-- C4: when no regex of any group matches the lower-cased prompt,
analyzeEditIntent returns the default intent: UPDATE_COMPONENT targeting
the entry point with confidence 0.3 and no suggested context. -/
theorem analyzeEditIntent_default (prompt : Str) (m : FileManifest)
    (h : ∀ pat ∈ intentPatterns, ∀ r ∈ pat.patterns,
      reTest r (jsLowerStr prompt) = false) :
    analyzeEditIntent prompt m =
      ⟨EditType.UPDATE_COMPONENT, [m.entryPoint], 3/10,
        strOf "General update to application", []⟩ := by
  unfold analyzeEditIntent
  rw [firstMatch_none (jsLowerStr prompt) intentPatterns h]

set_option maxRecDepth 100000 in
/-- Witness for analyzeEditIntent_default: "hello world" matches no
group. -/
theorem analyzeEditIntent_default_witness :
    analyzeEditIntent (strOf "hello world")
        ⟨[(strOf "lib/main.dart", ⟨strOf "void main() \x7b\x7d", 5, none, none⟩)],
          strOf "lib/main.dart", []⟩ =
      ⟨EditType.UPDATE_COMPONENT, [strOf "lib/main.dart"], 3/10,
        strOf "General update to application", []⟩ :=
  analyzeEditIntent_default (strOf "hello world")
    ⟨[(strOf "lib/main.dart", ⟨strOf "void main() \x7b\x7d", 5, none, none⟩)],
      strOf "lib/main.dart", []⟩ (by decide)

/-- C5 (amended): when some regex of the matched group matches, the
confidence is exactly the clamped sum in which the last 0.2 bonus always
applies; the token bonus counts the fields of `prompt.split(' ')` -
single-space-separated fields, not whitespace-separated tokens. -/
theorem calculateConfidence_characterization (prompt : Str) (pat : IntentPattern)
    (tf : List Str)
    (h : ∃ r ∈ pat.patterns, reTest r (jsLowerStr prompt) = true) :
    calculateConfidence prompt pat tf =
      min ((1 : ℚ)/2 +
        (match tf with | [] => 0 | f :: _ => if f.isEmpty then 0 else 1/5) +
        (if 5 < (splitOnChar ' ' prompt).length then (1 : ℚ)/10 else 0) + 1/5) 1 := by
  have hany : pat.patterns.any (fun r => reTest r (jsLowerStr prompt)) = true := by
    rcases h with ⟨r, hr, ht⟩
    exact List.any_eq_true.mpr ⟨r, hr, ht⟩
  simp only [calculateConfidence, hany, if_true]

/-- The FULL_REBUILD pattern group. -/
def fullRebuildGroup : IntentPattern :=
  ⟨fullRebuildPatterns, .FULL_REBUILD, fun _ m => [m.entryPoint]⟩

/-- Witness for calculateConfidence_characterization at the prompt
"start over" and a nonempty target list. -/
theorem calculateConfidence_characterization_witness :
    calculateConfidence (strOf "start over") fullRebuildGroup
      [strOf "lib/main.dart"] = 9/10 := by
  rw [calculateConfidence_characterization (strOf "start over") fullRebuildGroup
    [strOf "lib/main.dart"] (by decide)]
  rw [show (match [strOf "lib/main.dart"] with
      | [] => (0 : ℚ)
      | f :: _ => if f.isEmpty then 0 else 1/5) = (1/5 : ℚ) from rfl]
  rw [if_neg (by decide : ¬ 5 < (splitOnChar ' ' (strOf "start over")).length)]
  rw [min_def]
  norm_num

/-- The spec-worded confidence formula, differing from the code in one
place: "+0.1 if the prompt has more than 5 whitespace-separated tokens"
instead of more than 5 fields of `prompt.split(' ')`. -/
def specConfidence (prompt : Str) (pattern : IntentPattern)
    (targetFiles : List Str) : ℚ :=
  let c1 : ℚ := 1/2
  let c2 := c1 + (match targetFiles with
    | [] => 0
    | f :: _ => if f.isEmpty then 0 else 1/5)
  let c3 := c2 + (if 5 < (wsTokens prompt).length then 1/10 else 0)
  let c4 := c3 + (if pattern.patterns.any (fun r => reTest r (jsLowerStr prompt)) then 1/5 else 0)
  min c4 1

/-- C5 (counterexample to the claim as stated): a tab-separated prompt
has six whitespace-separated tokens (so the claimed formula reaches the
clamp at 1.0) but a single `split(' ')` field, so the code returns 0.9. -/
theorem calculateConfidence_wstokens_claim_false :
    (∃ r ∈ fullRebuildGroup.patterns,
      reTest r (jsLowerStr (strOf "start\tover\tplease\tright\tnow\tyes")) = true) ∧
    specConfidence (strOf "start\tover\tplease\tright\tnow\tyes") fullRebuildGroup
      [strOf "lib/main.dart"] = 1 ∧
    calculateConfidence (strOf "start\tover\tplease\tright\tnow\tyes") fullRebuildGroup
      [strOf "lib/main.dart"] = 9/10 := by
  refine ⟨by decide, ?_, ?_⟩
  · simp only [specConfidence]
    rw [if_neg (by decide : ¬ List.isEmpty (strOf "lib/main.dart") = true)]
    rw [if_pos (by decide :
      5 < (wsTokens (strOf "start\tover\tplease\tright\tnow\tyes")).length)]
    rw [if_pos (by decide : (fullRebuildGroup.patterns.any (fun r =>
      reTest r (jsLowerStr (strOf "start\tover\tplease\tright\tnow\tyes")))) = true)]
    rw [min_def]
    norm_num
  · simp only [calculateConfidence]
    rw [if_neg (by decide : ¬ List.isEmpty (strOf "lib/main.dart") = true)]
    rw [if_neg (by decide :
      ¬ 5 < (splitOnChar ' ' (strOf "start\tover\tplease\tright\tnow\tyes")).length)]
    rw [if_pos (by decide : (fullRebuildGroup.patterns.any (fun r =>
      reTest r (jsLowerStr (strOf "start\tover\tplease\tright\tnow\tyes")))) = true)]
    rw [min_def]
    norm_num

/-! ## flutter-code-generator.ts - generateFlutterCodeFromPrompt (C9)

The template files live in lib/flutter-templates, outside src/, so
loadTemplate is parameterized by a template store; a name the store does
not know models the readFileSync failure that is rethrown as the
"Template not found" error. Thrown errors are modelled with Except. -/

inductive ProjectType where
  | REACT_WEB
  | FLUTTER_MOBILE
deriving DecidableEq

inductive GenError where
  | templateNotFound (name : Str)
  | unsupportedProjectType
deriving DecidableEq

/-- loadTemplate. -/
def loadTemplate (store : Str → Option Str) (templateName : Str) :
    Except GenError Str :=
  match store templateName with
  | some t => .ok t
  | none => .error (.templateNotFound templateName)

/-- `{...defaults, ...config}`: spread semantics where config wins. -/
def mergeCfg (defaults config : Config) : Config :=
  defaults.filter (fun kv => (lookupA kv.1 config).isNone) ++ config

/-- `config.x || fallback` for an optional string field. -/
def jsOrDefault (o : Option Str) (d : Str) : Str :=
  match o with
  | some t => if t.isEmpty then d else t
  | none => d

/-- ASCII letter or digit ([a-zA-Z0-9], the class kept by toPascalCase). -/
def isAlnum (c : Char) : Bool :=
  ('a' ≤ c && c ≤ 'z') || ('A' ≤ c && c ≤ 'Z') || ('0' ≤ c && c ≤ '9')

/-- Upper-case the first character (`\b\w` → upper). -/
def capFirst : Str → Str
  | [] => []
  | c :: r => jsToUpper c :: r

/-- toPascalCase: non-alphanumerics become spaces, the first character of
each remaining run is upper-cased, spaces are removed - i.e. capitalize
and concatenate the alphanumeric runs. -/
def toPascalCase (s : Str) : Str :=
  ((runsGo isAlnum (s.length + 1) s).map capFirst).flatten

/-- ASCII upper-case letter. -/
def isUpperA (c : Char) : Bool := 'A' ≤ c && c ≤ 'Z'

/-- Collapse every underscore run to a single underscore (`/_+/g`). -/
def collapseUnd : Str → Str
  | [] => []
  | c :: r =>
    match collapseUnd r with
    | d :: t => if c = '_' && d = '_' then d :: t else c :: d :: t
    | [] => [c]

/-- Strip one leading underscore (`/^_/`). -/
def stripLeadUnd : Str → Str
  | '_' :: r => r
  | s => s

/-- Strip one trailing underscore. -/
def stripTrailUnd (s : Str) : Str := (stripLeadUnd s.reverse).reverse

/-- toSnakeCase: uppercase → `_x`, strip one leading underscore, map the
remaining non-word characters to underscores, collapse underscore runs,
strip one leading and one trailing underscore (`/^_|_$/g`). -/
def toSnakeCase (s : Str) : Str :=
  stripTrailUnd (stripLeadUnd (collapseUnd
    ((stripLeadUnd (s.flatMap (fun c =>
        if isUpperA c then ['_', jsToLower c] else [c]))).map
      (fun c => if isAlnum c || c = '_' then c else '_'))))

/-- generateMainDart. -/
def generateMainDart (store : Str → Option Str) (config : Config) :
    Except GenError Str :=
  (loadTemplate store (strOf "main.dart.template")).map (fun t =>
    replaceTemplateVariables t (mergeCfg
      [(strOf "app_name", .str (strOf "MyApp")),
       (strOf "app_title", .str (strOf "Flutter App")),
       (strOf "primary_color", .str (strOf "Colors.blue")),
       (strOf "home_widget", .str (strOf "HomePage"))] config))

/-- generatePubspecYaml. -/
def generatePubspecYaml (store : Str → Option Str) (config : Config) :
    Except GenError Str :=
  (loadTemplate store (strOf "pubspec.yaml.template")).map (fun t =>
    replaceTemplateVariables t (mergeCfg
      [(strOf "project_name", .str (strOf "flutter_app")),
       (strOf "project_description", .str (strOf "A new Flutter project.")),
       (strOf "dependencies", .arr []),
       (strOf "dev_dependencies", .arr []),
       (strOf "has_assets", .boolean false),
       (strOf "assets", .arr []),
       (strOf "has_fonts", .boolean false),
       (strOf "fonts", .arr [])] config))

/-- generateStatefulWidget. -/
def generateStatefulWidget (store : Str → Option Str) (config : Config) :
    Except GenError Str :=
  (loadTemplate store (strOf "stateful-widget.template")).map (fun t =>
    replaceTemplateVariables t (mergeCfg
      [(strOf "constructor_params", .arr []),
       (strOf "state_variables", .arr []),
       (strOf "lifecycle_methods", .arr []),
       (strOf "custom_methods", .arr []),
       (strOf "widget_body", .str (strOf "Container()"))] config))

/-- generateStatelessWidget. -/
def generateStatelessWidget (store : Str → Option Str) (config : Config) :
    Except GenError Str :=
  (loadTemplate store (strOf "stateless-widget.template")).map (fun t =>
    replaceTemplateVariables t (mergeCfg
      [(strOf "constructor_params", .arr []),
       (strOf "custom_methods", .arr []),
       (strOf "widget_body", .str (strOf "Container()"))] config))

/-- generateScreen: note the dynamic default
`screen_title: config.screen_name`. -/
def generateScreen (store : Str → Option Str) (config : Config) :
    Except GenError Str :=
  (loadTemplate store (strOf "screen.template")).map (fun t =>
    replaceTemplateVariables t (mergeCfg
      [(strOf "screen_title",
         (lookupA (strOf "screen_name") config).getD .undef),
       (strOf "has_app_bar", .boolean true),
       (strOf "has_drawer", .boolean false),
       (strOf "has_floating_action_button", .boolean false),
       (strOf "has_bottom_navigation", .boolean false),
       (strOf "has_actions", .boolean false),
       (strOf "body_content", .str (strOf "Center(child: Text(\"Hello World\"))")),
       (strOf "actions", .arr []),
       (strOf "drawer_items", .arr []),
       (strOf "bottom_nav_items", .arr []),
       (strOf "current_index", .str (strOf "0")),
       (strOf "on_tap_handler", .str (strOf "(index) \x7b\x7d")),
       (strOf "fab_action", .str (strOf "() \x7b\x7d")),
       (strOf "fab_tooltip", .str (strOf "Action")),
       (strOf "fab_icon", .str (strOf "Icons.add"))] config))

/-- generateFlutterProject: main.dart, pubspec.yaml and the home page;
any missing template propagates its templateNotFound error. -/
def generateFlutterProject (store : Str → Option Str) (projectName : Str)
    (projectDescription appTitle primaryColor : Option Str) :
    Except GenError (List (Str × Str)) :=
  let appName := toPascalCase projectName
  let homeWidget := appName ++ strOf "HomePage"
  (generateMainDart store
    [(strOf "app_name", .str appName),
     (strOf "app_title", .str (jsOrDefault appTitle projectName)),
     (strOf "primary_color", .str (jsOrDefault primaryColor (strOf "Colors.blue"))),
     (strOf "home_widget", .str homeWidget)]).bind (fun mainDart =>
  (generatePubspecYaml store
    [(strOf "project_name", .str (toSnakeCase projectName)),
     (strOf "project_description", .str (jsOrDefault projectDescription
       (strOf "A new Flutter project generated by Open Lovable.")))]).bind (fun pubspecYaml =>
  (generateScreen store
    [(strOf "screen_name", .str homeWidget),
     (strOf "screen_title", .str (jsOrDefault appTitle projectName)),
     (strOf "body_content", .str
       (strOf "Center(\n        child: Column(\n          mainAxisAlignment: MainAxisAlignment.center,\n          children: [\n            Text(\n              \x27Welcome to " ++
        jsOrDefault appTitle projectName ++
        strOf "!\x27,\n              style: TextStyle(fontSize: 24, fontWeight: FontWeight.bold),\n            ),\n            SizedBox(height: 16),\n            Text(\n              \x27Start building your amazing app\x27,\n              style: TextStyle(fontSize: 16),\n            ),\n          ],\n        ),\n      )"))]).map (fun homePage =>
  [(strOf "lib/main.dart", mainDart),
   (strOf "pubspec.yaml", pubspecYaml),
   (strOf "lib/pages/" ++ toSnakeCase homeWidget ++ strOf ".dart", homePage)])))

/-- The first pattern of a list whose group 1 captures (JS: the first
regex with a non-null match). -/
def firstCapture : List RE → Str → Option Str
  | [], _ => none
  | p :: rest, s =>
    match reCapture 1 p s with
    | some c => some c
    | none => firstCapture rest s

/-- The five extractScreenName patterns. -/
def screenNamePatterns : List RE :=
  [cats [reL "create", reSp, optW "a", .grp 1 reWd, reSp, reL "screen"],
   cats [reL "build", reSp, .grp 1 reWd, reSp, reL "screen"],
   cats [reL "make", reSp, optW "a", .grp 1 reWd, reSp, reL "screen"],
   cats [.grp 1 reWd, reSp, reL "screen"],
   cats [reL "screen", reSp, optW "called", .grp 1 reWd]]

/-- extractScreenName. -/
def extractScreenName (prompt : Str) : Option Str :=
  (firstCapture screenNamePatterns (jsLowerStr prompt)).map (fun m1 =>
    let baseName := toPascalCase m1
    if jsEndsWith baseName (strOf "Screen") then baseName
    else baseName ++ strOf "Screen")

/-- `[\w\s]`. -/
def wsWordC : Char → Bool := fun c => isWordChar c || jsSpace c

/-- The six extractWidgetName patterns. -/
def widgetNamePatterns : List RE :=
  [cats [reL "create", reSp, optW "a", .grp 1 (.plusc wsWordC), reSp, reL "widget"],
   cats [reL "build", reSp, .grp 1 (.plusc wsWordC), reSp, reL "widget"],
   cats [reL "make", reSp, optW "a", .grp 1 (.plusc wsWordC), reSp, reL "widget"],
   cats [.grp 1 (.plusc wsWordC), reSp, reL "widget"],
   cats [reL "widget", reSp, optW "called", .grp 1 (.plusc wsWordC)],
   cats [reL "component", reSp, optW "called", .grp 1 (.plusc wsWordC)]]

/-- extractWidgetName. -/
def extractWidgetName (prompt : Str) : Option Str :=
  (firstCapture widgetNamePatterns (jsLowerStr prompt)).map (fun m1 =>
    let baseName := toPascalCase (jsTrim m1)
    if jsEndsWith baseName (strOf "Widget") then baseName
    else baseName ++ strOf "Widget")

/-- The four extractProjectName patterns. -/
def projectNamePatterns : List RE :=
  [cats [reL "create", reSp, optW "a", .grp 1 reWd, reSp, .alt (reL "app") (reL "project")],
   cats [reL "build", reSp, .grp 1 reWd, reSp, reL "app"],
   cats [reL "make", reSp, optW "a", .grp 1 reWd, reSp, .alt (reL "app") (reL "project")],
   cats [.alt (reL "app") (reL "project"), reSp, optW "called", .grp 1 reWd]]

/-- extractProjectName. -/
def extractProjectName (prompt : Str) : Option Str :=
  (firstCapture projectNamePatterns (jsLowerStr prompt)).map (fun m1 =>
    let baseName := toPascalCase m1
    if strContains (jsLowerStr prompt) (strOf "project") then
      if jsEndsWith baseName (strOf "Project") then baseName
      else baseName ++ strOf "Project"
    else
      if jsEndsWith baseName (strOf "App") then baseName
      else baseName ++ strOf "App")

/-- generateScreenFromPrompt. -/
def generateScreenFromPrompt (store : Str → Option Str) (prompt : Str) :
    Except GenError Str :=
  let lp := jsLowerStr prompt
  let screenName := (extractScreenName prompt).getD (strOf "GeneratedScreen")
  let hasAppBar := strContains lp (strOf "appbar") || strContains lp (strOf "app bar")
  let hasFab := strContains lp (strOf "floating action") || strContains lp (strOf "fab")
  let hasBottomNav :=
    strContains lp (strOf "bottom navigation") || strContains lp (strOf "tab")
  generateScreen store
    [(strOf "screen_name", .str screenName),
     (strOf "has_app_bar", .boolean hasAppBar),
     (strOf "has_floating_action_button", .boolean hasFab),
     (strOf "has_bottom_navigation", .boolean hasBottomNav),
     (strOf "body_content", .str
       (strOf "Center(\n        child: Text(\x27" ++ screenName ++
        strOf " Screen\x27),\n      )"))]

/-- generateWidgetFromPrompt. -/
def generateWidgetFromPrompt (store : Str → Option Str) (prompt : Str) :
    Except GenError Str :=
  let lp := jsLowerStr prompt
  let widgetName := (extractWidgetName prompt).getD (strOf "GeneratedWidget")
  let isStateful := strContains lp (strOf "stateful") ||
    strContains lp (strOf "state") || strContains lp (strOf "interactive")
  if isStateful then
    generateStatefulWidget store
      [(strOf "widget_name", .str widgetName),
       (strOf "widget_body", .str
         (strOf "Container(\n          child: Text(\x27" ++ widgetName ++
          strOf "\x27),\n        )"))]
  else
    generateStatelessWidget store
      [(strOf "widget_name", .str widgetName),
       (strOf "widget_body", .str
         (strOf "Container(\n          child: Text(\x27" ++ widgetName ++
          strOf "\x27),\n        )"))]

/-- generateProjectFromPrompt: build the whole project, return the
main.dart content. -/
def generateProjectFromPrompt (store : Str → Option Str) (prompt : Str) :
    Except GenError Str :=
  let projectName := (extractProjectName prompt).getD (strOf "GeneratedApp")
  (generateFlutterProject store projectName none (some projectName) none).map
    (fun files =>
      match lookupA (strOf "lib/main.dart") files with
      | some s => s
      | none => [])

/-- generateFlutterCodeFromPrompt: the unsupported-project-type rejection
followed by the keyword dispatch. -/
def generateFlutterCodeFromPrompt (store : Str → Option Str) (prompt : Str)
    (projectType : ProjectType) : Except GenError Str :=
  if projectType = ProjectType.FLUTTER_MOBILE then
    let lowerPrompt := jsLowerStr prompt
    if strContains lowerPrompt (strOf "screen") ||
       strContains lowerPrompt (strOf "page") then
      generateScreenFromPrompt store prompt
    else if strContains lowerPrompt (strOf "widget") ||
        strContains lowerPrompt (strOf "component") then
      generateWidgetFromPrompt store prompt
    else if strContains lowerPrompt (strOf "project") ||
        strContains lowerPrompt (strOf "app") then
      generateProjectFromPrompt store prompt
    else
      generateStatelessWidget store
        [(strOf "widget_name", .str (strOf "GeneratedWidget")),
         (strOf "widget_body", .str
           (strOf "Container(\n        child: Text(\x27Generated from: " ++
            prompt ++ strOf "\x27),\n      )"))]
  else
    .error .unsupportedProjectType

/-- loadTemplate can only fail with templateNotFound. -/
theorem loadTemplate_not_unsupported (store : Str → Option Str) (n : Str) :
    ¬ loadTemplate store n = Except.error GenError.unsupportedProjectType := by
  cases hs : store n <;> simp [loadTemplate, hs]

/-- Mapping over an Except preserves being not-the-unsupported-error. -/
theorem except_map_not_unsupported {α β : Type} (f : α → β)
    (e : Except GenError α)
    (h : ¬ e = Except.error GenError.unsupportedProjectType) :
    ¬ e.map f = Except.error GenError.unsupportedProjectType := by
  cases e with
  | ok a => simp [Except.map]
  | error x => simpa [Except.map] using h

/-- generateMainDart never raises the unsupported error. -/
theorem generateMainDart_not_unsupported (store : Str → Option Str)
    (cfg : Config) :
    ¬ generateMainDart store cfg = Except.error GenError.unsupportedProjectType := by
  unfold generateMainDart
  exact except_map_not_unsupported _ _ (loadTemplate_not_unsupported store _)

/-- generatePubspecYaml never raises the unsupported error. -/
theorem generatePubspecYaml_not_unsupported (store : Str → Option Str)
    (cfg : Config) :
    ¬ generatePubspecYaml store cfg = Except.error GenError.unsupportedProjectType := by
  unfold generatePubspecYaml
  exact except_map_not_unsupported _ _ (loadTemplate_not_unsupported store _)

/-- generateStatefulWidget never raises the unsupported error. -/
theorem generateStatefulWidget_not_unsupported (store : Str → Option Str)
    (cfg : Config) :
    ¬ generateStatefulWidget store cfg = Except.error GenError.unsupportedProjectType := by
  unfold generateStatefulWidget
  exact except_map_not_unsupported _ _ (loadTemplate_not_unsupported store _)

/-- generateStatelessWidget never raises the unsupported error. -/
theorem generateStatelessWidget_not_unsupported (store : Str → Option Str)
    (cfg : Config) :
    ¬ generateStatelessWidget store cfg = Except.error GenError.unsupportedProjectType := by
  unfold generateStatelessWidget
  exact except_map_not_unsupported _ _ (loadTemplate_not_unsupported store _)

/-- generateScreen never raises the unsupported error. -/
theorem generateScreen_not_unsupported (store : Str → Option Str)
    (cfg : Config) :
    ¬ generateScreen store cfg = Except.error GenError.unsupportedProjectType := by
  unfold generateScreen
  exact except_map_not_unsupported _ _ (loadTemplate_not_unsupported store _)

/-- Binding an Except preserves being not-the-unsupported-error when the
continuation does. -/
theorem except_bind_not_unsupported {α β : Type}
    (e : Except GenError α) (f : α → Except GenError β)
    (he : ¬ e = Except.error GenError.unsupportedProjectType)
    (hf : ∀ a, ¬ f a = Except.error GenError.unsupportedProjectType) :
    ¬ e.bind f = Except.error GenError.unsupportedProjectType := by
  cases e with
  | ok a => simpa [Except.bind] using hf a
  | error x => simpa [Except.bind] using he

/-- generateFlutterProject never raises the unsupported error. -/
theorem generateFlutterProject_not_unsupported (store : Str → Option Str)
    (pn : Str) (pd at0 pc : Option Str) :
    ¬ generateFlutterProject store pn pd at0 pc =
      Except.error GenError.unsupportedProjectType := by
  unfold generateFlutterProject
  refine except_bind_not_unsupported _ _
    (generateMainDart_not_unsupported store _) (fun a => ?_)
  refine except_bind_not_unsupported _ _
    (generatePubspecYaml_not_unsupported store _) (fun b => ?_)
  exact except_map_not_unsupported _ _ (generateScreen_not_unsupported store _)

/-- generateScreenFromPrompt never raises the unsupported error. -/
theorem generateScreenFromPrompt_not_unsupported (store : Str → Option Str)
    (prompt : Str) :
    ¬ generateScreenFromPrompt store prompt =
      Except.error GenError.unsupportedProjectType := by
  unfold generateScreenFromPrompt
  exact generateScreen_not_unsupported store _

/-- generateWidgetFromPrompt never raises the unsupported error. -/
theorem generateWidgetFromPrompt_not_unsupported (store : Str → Option Str)
    (prompt : Str) :
    ¬ generateWidgetFromPrompt store prompt =
      Except.error GenError.unsupportedProjectType := by
  intro h
  simp only [generateWidgetFromPrompt] at h
  split at h
  · exact generateStatefulWidget_not_unsupported store _ h
  · exact generateStatelessWidget_not_unsupported store _ h

/-- generateProjectFromPrompt never raises the unsupported error. -/
theorem generateProjectFromPrompt_not_unsupported (store : Str → Option Str)
    (prompt : Str) :
    ¬ generateProjectFromPrompt store prompt =
      Except.error GenError.unsupportedProjectType := by
  unfold generateProjectFromPrompt
  exact except_map_not_unsupported _ _
    (generateFlutterProject_not_unsupported store _ _ _ _)

/-- C9: generateFlutterCodeFromPrompt fails with the explicit
unsupported-project-type error exactly when the project type is not
FLUTTER_MOBILE; for FLUTTER_MOBILE every dispatch branch returns either
generated code or a templateNotFound error, never the unsupported one. -/
theorem generateFlutterCodeFromPrompt_unsupported_iff
    (store : Str → Option Str) (prompt : Str) (pt : ProjectType) :
    generateFlutterCodeFromPrompt store prompt pt =
      Except.error GenError.unsupportedProjectType ↔
    ¬ pt = ProjectType.FLUTTER_MOBILE := by
  cases pt with
  | REACT_WEB =>
    constructor
    · intro _ h
      cases h
    · intro _
      rfl
  | FLUTTER_MOBILE =>
    constructor
    · intro h
      exfalso
      rw [generateFlutterCodeFromPrompt, if_pos rfl] at h
      simp only [] at h
      split at h
      · exact generateScreenFromPrompt_not_unsupported store prompt h
      · split at h
        · exact generateWidgetFromPrompt_not_unsupported store prompt h
        · split at h
          · exact generateProjectFromPrompt_not_unsupported store prompt h
          · exact generateStatelessWidget_not_unsupported store _ h
    · intro h
      exact absurd rfl h
